import Mathlib

/-!
Verification of the invoice-back backend: a shallow embedding in Lean 4 of
the recipient-matching and notification pipeline (identity normalizers,
receiver resolution, document creation, received-document views, and the
OTP store), with theorems checking the specification's claims against it.

Strings are modelled as `List Char` (`Str` below); JavaScript `null` /
`undefined` values are modelled as `Option`.
-/

namespace InvoiceBack

/-- JS strings, modelled as lists of characters. -/
abbrev Str := List Char

/-- Whitespace class used by the JS `trim()` and `\s`. -/
def isSpace (c : Char) : Bool := c.isWhitespace

/-- Digit class used by the JS `\D` (complement). -/
def isDigit (c : Char) : Bool := c.isDigit

/-- JS `String.prototype.trim()`: drop whitespace from both ends. -/
def trimStr (s : Str) : Str :=
  ((s.dropWhile isSpace).reverse.dropWhile isSpace).reverse

/-- JS `String.prototype.toLowerCase()` (ASCII case, which is all the
code compares). -/
def lowerStr (s : Str) : Str := s.map Char.toLower

/-- JS `s.replace(/\D/g, '')`: keep only digit characters. -/
def digitsOf (s : Str) : Str := s.filter isDigit

/-- JS `s.slice(-n)`: the last `min n (length s)` characters. -/
def sliceLast (n : Nat) (s : Str) : Str := s.drop (s.length - n)

/-- JS truthiness of an optional string: `undefined`/`null` and the empty
string are falsy. -/
def truthy (s : Option Str) : Bool :=
  match s with
  | none => false
  | some v => !v.isEmpty

/-- JS `a || b` on optional strings: `a` when truthy, else `b`. -/
def jsOr (a b : Option Str) : Option Str := if truthy a then a else b

/-- JS `a ?? b` on optional strings: `a` when not null/undefined, else `b`. -/
def coalesce (a b : Option Str) : Option Str :=
  match a with
  | some v => some v
  | none => b

/-! ## Identity normalizers (`recipient.util.ts`) -/

/-- `normalizePhone(phone)`: `if (!phone) return ''`, else strip
non-digits and `slice(-10)`. -/
def normalizePhone (phone : Option Str) : Str :=
  if truthy phone = false then []
  else sliceLast 10 (digitsOf (phone.getD []))

/-- `normalizeEmail(email)`: `''` for null/undefined, else
`toLowerCase().trim()`. -/
def normalizeEmail (email : Option Str) : Str :=
  match email with
  | none => []
  | some e => trimStr (lowerStr e)

/-- `phoneForStorage(phone)`: strip non-digits from `String(phone ?? '')`;
null if fewer than 10 digits remain, else the last 10. -/
def phoneForStorage (phone : Option Str) : Option Str :=
  let digits := digitsOf (phone.getD [])
  if digits.length < 10 then none
  else some (sliceLast 10 digits)

/-- Whether `r` (the part after the `@`) can be split as
`[^\s@]+ '.' [^\s@]+`: it has a `'.'` that is neither its first nor its
last character.  (Absence of whitespace and `'@'` in `r` is checked
separately on the whole string.) -/
def dotSplitOk (r : Str) : Bool :=
  (List.range r.length).any fun j =>
    decide (1 ≤ j) && decide (j + 1 < r.length) && (r.getD j ' ' == '.')

/-- Full-match semantics of the storage-email regex
`/^[^\s@]+@[^\s@]+\.[^\s@]+$/`: no whitespace anywhere, exactly one `'@'`
which is not the first character, and the part after the `'@'` contains a
`'.'` that is neither immediately after the `'@'` nor at the end. -/
def emailRegexMatch (s : Str) : Bool :=
  s.all (fun c => !isSpace c) &&
  (s.count '@' == 1) &&
  decide (1 ≤ s.indexOf '@') &&
  dotSplitOk (s.drop (s.indexOf '@' + 1))

/-- `emailForStorage(email)`: normalize, then null unless the result is
non-empty and matches the storage regex. -/
def emailForStorage (email : Option Str) : Option Str :=
  let e := normalizeEmail email
  if e.isEmpty || !emailRegexMatch e then none
  else some e

/-- The email pattern as the specification words it: `non-space '@'
non-space '.' non-space` — chunks of one or more non-whitespace characters
(so a chunk may itself contain `'@'` or `'.'`). -/
def emailSpecPattern (s : Str) : Bool :=
  s.all (fun c => !isSpace c) &&
  ((List.range s.length).any fun i =>
    (s.getD i ' ' == '@') &&
    ((List.range s.length).any fun j =>
      decide (1 ≤ i) && decide (i + 2 ≤ j) && decide (j + 1 < s.length) &&
      (s.getD j ' ' == '.')))

/-- Expo push-token shape `/^ExponentPushToken\[.+\]$/` (`push.service.ts`,
`isExpoPushToken`); `.` excludes line terminators. -/
def isExpoPushToken (s : Str) : Bool :=
  decide (20 ≤ s.length) && (s.take 18 == "ExponentPushToken[".data) &&
  (s.getLast? == some ']') &&
  ((s.drop 18).dropLast.all fun c => c != '\n' && c != '\r')

/-! ## Data model

Rows of the backing store.  Ids (uuid strings in the source) are modelled
as `Nat`; display-only columns (message title/description text, timestamps
and `created_at` ordering keys) are not modelled, since no claim depends
on them. -/

/-- A `profiles` row. -/
structure Profile where
  id : Nat
  full_name : Option Str := none
  phone : Option Str := none
  email : Option Str := none
  expo_push_token : Option Str := none
deriving DecidableEq

/-- A `customers` row. -/
structure Customer where
  id : Nat
  user_id : Nat
  name : Str := []
  phone : Option Str := none
  email : Option Str := none
deriving DecidableEq

/-- An `invoices` row. -/
structure Invoice where
  id : Nat
  user_id : Nat
  customer_id : Option Nat := none
  recipient_phone : Option Str := none
  recipient_email : Option Str := none
  number : Str := []
  due_date : Option Str := none
  status : Str := []
  type : Str := []
  notes : Option Str := none
  include_gst : Bool := true
  payment_type : Option Str := none
deriving DecidableEq

/-- An `invoice_items` row. -/
structure InvoiceItem where
  invoice_id : Nat
  name : Str := []
  qty : Int := 1
  rate : Int := 0
  sort_order : Nat := 0
deriving DecidableEq

/-- A `quotations` row. -/
structure Quotation where
  id : Nat
  user_id : Nat
  customer_id : Option Nat := none
  recipient_phone : Option Str := none
  recipient_email : Option Str := none
  quo_number : Str := []
  client_name : Option Str := none
  amount : Int := 0
  date : Str := []
  version : Str := []
  valid_until : Option Str := none
  view_status : Option Str := none
  status : Str := []
  type : Str := []
deriving DecidableEq

/-- A `quotation_items` row. -/
structure QuotationItem where
  quotation_id : Nat
  name : Str := []
  qty : Int := 1
  rate : Int := 0
  sort_order : Nat := 0
deriving DecidableEq

/-- A `messages` row (in-app notification).  Only the recipient and the
unread flag are modelled; the display strings are not. -/
structure Message where
  user_id : Nat
  unread : Bool := true
deriving DecidableEq

/-- The backing store.  `nextId` supplies the id of the next inserted
document row. -/
structure Db where
  nextId : Nat := 0
  profiles : List Profile := []
  customers : List Customer := []
  invoices : List Invoice := []
  invoice_items : List InvoiceItem := []
  quotations : List Quotation := []
  quotation_items : List QuotationItem := []
  messages : List Message := []
deriving DecidableEq

/-- The authenticated caller as supplied by the auth provider:
`{ id, email?, phone?, user_metadata? }` (metadata fields flattened). -/
structure AuthUser where
  id : Nat
  email : Option Str := none
  phone : Option Str := none
  meta_full_name : Option Str := none
  meta_phone : Option Str := none
  meta_email : Option Str := none
deriving DecidableEq

/-- `from('profiles').select(...).eq('id', uid).single()`. -/
def findProfile (db : Db) (uid : Nat) : Option Profile :=
  db.profiles.find? fun p => p.id == uid

/-- `from('customers').select(...).eq('id', cid).eq('user_id', uid).single()`. -/
def findCustomer (db : Db) (cid uid : Nat) : Option Customer :=
  db.customers.find? fun c => c.id == cid && c.user_id == uid

/-- `from('invoices').select(...).eq('id', id).single()` (no owner filter). -/
def findInvoice (db : Db) (id : Nat) : Option Invoice :=
  db.invoices.find? fun i => i.id == id

/-- `from('quotations').select(...).eq('id', id).single()` (no owner filter). -/
def findQuotation (db : Db) (id : Nat) : Option Quotation :=
  db.quotations.find? fun q => q.id == id

/-- The `invoice_items (*)` nested select for one invoice. -/
def invoiceItemsOf (db : Db) (id : Nat) : List InvoiceItem :=
  db.invoice_items.filter fun it => it.invoice_id == id

/-- The `quotation_items (*)` nested select for one quotation. -/
def quotationItemsOf (db : Db) (id : Nat) : List QuotationItem :=
  db.quotation_items.filter fun it => it.quotation_id == id

/-- The `customers (id, name, phone, email)` nested select joined by
`customer_id` (not owner-scoped). -/
def joinedCustomer (db : Db) (cid : Option Nat) : Option Customer :=
  cid.bind fun c => db.customers.find? fun r => r.id == c

/-- Request/response errors (`BadRequestException` / `NotFoundException`). -/
inductive HttpError where
  | badRequest (msg : Str)
  | notFound (msg : Str)
deriving DecidableEq

deriving instance DecidableEq for Except

/-! ## Receiver resolution (recipient → registered profile ids) -/

/-- `Set.add` on a JS `Set` kept as an insertion-ordered list. -/
def setAdd (ids : List Nat) (x : Nat) : List Nat :=
  if x ∈ ids then ids else ids ++ [x]

/-- Add every element of `xs` to the set `ids`, in order. -/
def setAddAll (ids : List Nat) (xs : List Nat) : List Nat :=
  xs.foldl setAdd ids

/-- `eq('phone', ph)`: exact match on the stored phone (null never matches). -/
def phoneEq (p : Profile) (ph : Str) : Bool :=
  p.phone == some ph

/-- `like('phone', '%' + ph)`: the stored phone ends with `ph`. -/
def phoneEndsWith (p : Profile) (ph : Str) : Bool :=
  match p.phone with
  | some s => ph.isSuffixOf s
  | none => false

/-- `ilike('phone', '%' + ph)`: case-insensitive ends-with. -/
def phoneEndsWithCI (p : Profile) (ph : Str) : Bool :=
  match p.phone with
  | some s => (lowerStr ph).isSuffixOf (lowerStr s)
  | none => false

/-- `ilike('email', em)` with no wildcard: case-insensitive equality. -/
def emailMatchCI (p : Profile) (em : Str) : Bool :=
  match p.email with
  | some s => lowerStr s == lowerStr em
  | none => false

/-- The email pass shared by both controllers: when a recipient email is
present, add every profile whose stored email matches case-insensitively
(`ilike`), excluding the sender. -/
def receiverEmailStage (profiles : List Profile) (senderId : Nat)
    (rEmail : Option Str) (ids : List Nat) : List Nat :=
  if truthy rEmail then
    setAddAll ids
      ((profiles.filter fun p => p.id != senderId && emailMatchCI p (rEmail.getD [])).map Profile.id)
  else ids

/-- Phone pass of `InvoicesController.create`: exact matches first; the
suffix (`like '%phone'`) query runs only when the exact query found
nothing (`receiverIds.size === 0`).  The `let`-bound intermediate set is
written out explicitly. -/
def invoicePhoneStage (profiles : List Profile) (senderId : Nat)
    (rPhone : Option Str) : List Nat :=
  if truthy rPhone then
    (if (setAddAll []
          ((profiles.filter fun p =>
            p.id != senderId && phoneEq p (rPhone.getD [])).map Profile.id)).isEmpty then
      setAddAll
        (setAddAll []
          ((profiles.filter fun p =>
            p.id != senderId && phoneEq p (rPhone.getD [])).map Profile.id))
        ((profiles.filter fun p =>
          p.id != senderId && phoneEndsWith p (rPhone.getD [])).map Profile.id)
    else
      setAddAll []
        ((profiles.filter fun p =>
          p.id != senderId && phoneEq p (rPhone.getD [])).map Profile.id))
  else []

/-- Phone pass of `QuotationsController.create`: the
`find_receiver_ids_by_phone` RPC does not exist in this repository, so
the `catch` falls through with the set still empty and the
`receiverIds.size === 0` guard always takes the supabase fallback, which
adds exact and suffix (`ilike '%phone'`) results together. -/
def quotationPhoneStage (profiles : List Profile) (senderId : Nat)
    (rPhone : Option Str) : List Nat :=
  if truthy rPhone then
    (if ([] : List Nat).isEmpty then
      setAddAll []
        (((profiles.filter fun p =>
            p.id != senderId && phoneEq p (rPhone.getD [])).map Profile.id) ++
         ((profiles.filter fun p =>
            p.id != senderId && phoneEndsWithCI p (rPhone.getD [])).map Profile.id))
    else [])
  else []

/-- Receiver resolution in `InvoicesController.create`. -/
def invoiceReceiverIds (profiles : List Profile) (senderId : Nat)
    (rPhone rEmail : Option Str) : List Nat :=
  receiverEmailStage profiles senderId rEmail (invoicePhoneStage profiles senderId rPhone)

/-- Receiver resolution in `QuotationsController.create`. -/
def quotationReceiverIds (profiles : List Profile) (senderId : Nat)
    (rPhone rEmail : Option Str) : List Nat :=
  receiverEmailStage profiles senderId rEmail (quotationPhoneStage profiles senderId rPhone)

/-- The receiver set as claimed by the specification: the plain union of
exact phone matches, phone suffix matches and case-insensitive email
matches, excluding the sender. -/
def claimReceiverMatch (senderId : Nat) (rPhone rEmail : Option Str)
    (p : Profile) : Prop :=
  p.id ≠ senderId ∧
    ((truthy rPhone = true ∧
       (phoneEq p (rPhone.getD []) = true ∨ phoneEndsWith p (rPhone.getD []) = true)) ∨
     (truthy rEmail = true ∧ emailMatchCI p (rEmail.getD []) = true))

instance (senderId : Nat) (rPhone rEmail : Option Str) (p : Profile) :
    Decidable (claimReceiverMatch senderId rPhone rEmail p) := by
  unfold claimReceiverMatch
  infer_instance

/-- Concrete fixture: one profile stores the canonical 10-digit phone and
another stores a longer legacy form ending in it. -/
def cexProfiles : List Profile :=
  [{ id := 1, phone := some "9876543210".data },
   { id := 2, phone := some "919876543210".data }]

/-! ## Caller identity at list time -/

/-- Identity computed by `InvoicesController.list`:
`profile?.phone ?? meta?.phone` normalized, and
`(profile?.email ?? req.user.email ?? meta?.email ?? '').toLowerCase().trim()`. -/
def invoiceListIdentity (profile : Option Profile) (user : AuthUser) : Str × Str :=
  let profilePhone := coalesce (profile.bind Profile.phone) user.meta_phone
  let myPhone := normalizePhone profilePhone
  let profileEmail :=
    (coalesce (coalesce (profile.bind Profile.email) user.email) user.meta_email).getD []
  let myEmail := trimStr (lowerStr profileEmail)
  (myPhone, myEmail)

/-- Identity computed by `QuotationsController.list` (lines 57–61 and
111–116): `metaPhone = meta?.phone ?? authPhone`,
`metaEmail = meta?.email ?? authEmail`, then
`normalizePhone(metaPhone || authPhone || profilePhone || '')` and
`normalizeEmail(authEmail || metaEmail || profileEmail || '')`. -/
def quotationListIdentity (profile : Option Profile) (user : AuthUser) : Str × Str :=
  let metaPhone := coalesce user.meta_phone user.phone
  let metaEmail := coalesce user.meta_email user.email
  let profilePhone := profile.bind Profile.phone
  let profileEmail := profile.bind Profile.email
  let myPhone := normalizePhone (jsOr (jsOr (jsOr metaPhone user.phone) profilePhone) (some []))
  let myEmail := normalizeEmail (jsOr (jsOr (jsOr user.email metaEmail) profileEmail) (some []))
  (myPhone, myEmail)

/-- The identity resolution order the specification claims for the list
endpoints: auth-provider metadata first, then the auth-provider primary
fields, then the stored profile row — for both components. -/
def specListIdentity (profile : Option Profile) (user : AuthUser) : Str × Str :=
  (normalizePhone (jsOr (jsOr user.meta_phone user.phone) (profile.bind Profile.phone)),
   normalizeEmail (jsOr (jsOr user.meta_email user.email) (profile.bind Profile.email)))

/-! ## Get-by-id (received-document check) -/

/-- Response shape of a document fetch: the row with its joined customer
and line items. -/
structure InvoiceResp where
  invoice : Invoice
  items : List InvoiceItem := []
  customer : Option Customer := none
deriving DecidableEq

/-- Response shape of a quotation fetch. -/
structure QuotationResp where
  quotation : Quotation
  items : List QuotationItem := []
  customer : Option Customer := none
deriving DecidableEq

/-- `{ ...inv, type: 'received' }`: response-level type rewrite. -/
def markReceivedInv (r : InvoiceResp) : InvoiceResp :=
  { r with invoice := { r.invoice with type := "received".data } }

/-- `{ ...q, type: 'received' }`: response-level type rewrite. -/
def markReceivedQuo (r : QuotationResp) : QuotationResp :=
  { r with quotation := { r.quotation with type := "received".data } }

/-- The joined response row the get handlers select. -/
def invResponseOf (db : Db) (inv : Invoice) : InvoiceResp :=
  { invoice := inv, items := invoiceItemsOf db inv.id,
    customer := joinedCustomer db inv.customer_id }

/-- The joined response row the quotation get handler selects. -/
def quoResponseOf (db : Db) (q : Quotation) : QuotationResp :=
  { quotation := q, items := quotationItemsOf db q.id,
    customer := joinedCustomer db q.customer_id }

/-- `InvoicesController.get`: owner sees the row as stored; a non-owner
is checked against `recipient_phone`/`recipient_email` (normalized) and
otherwise gets the same not-found error as for a missing row. -/
def invoiceGet (db : Db) (caller : AuthUser) (id : Nat) : Except HttpError InvoiceResp :=
  match findInvoice db id with
  | none => .error (.notFound "Invoice not found".data)
  | some inv =>
    let resp : InvoiceResp := invResponseOf db inv
    if inv.user_id = caller.id then .ok resp
    else
      let profile := findProfile db caller.id
      let profilePhone := coalesce (profile.bind Profile.phone) caller.meta_phone
      let myPhone := normalizePhone profilePhone
      let myEmail := trimStr (lowerStr
        ((coalesce (profile.bind Profile.email) caller.email).getD []))
      let rPhone := normalizePhone inv.recipient_phone
      let rEmail := trimStr (lowerStr (inv.recipient_email.getD []))
      let isRecipient :=
        (!myPhone.isEmpty && !rPhone.isEmpty && myPhone == rPhone) ||
        (!myEmail.isEmpty && !rEmail.isEmpty && myEmail == rEmail)
      if isRecipient then .ok (markReceivedInv resp)
      else .error (.notFound "Invoice not found".data)

/-- `QuotationsController.get`: same structure as `invoiceGet`, phrased
through `normalizePhone`/`normalizeEmail` from `recipient.util.ts`. -/
def quotationGet (db : Db) (caller : AuthUser) (id : Nat) : Except HttpError QuotationResp :=
  match findQuotation db id with
  | none => .error (.notFound "Quotation not found".data)
  | some q =>
    let resp : QuotationResp := quoResponseOf db q
    if q.user_id = caller.id then .ok resp
    else
      let profile := findProfile db caller.id
      let profilePhone := coalesce (profile.bind Profile.phone) caller.meta_phone
      let myPhone := normalizePhone profilePhone
      let myEmail := normalizeEmail
        (some ((coalesce (profile.bind Profile.email) caller.email).getD []))
      let rPhone := normalizePhone q.recipient_phone
      let rEmail := normalizeEmail q.recipient_email
      let isRecipient :=
        (!myPhone.isEmpty && !rPhone.isEmpty && myPhone == rPhone) ||
        (!myEmail.isEmpty && !rEmail.isEmpty && myEmail == rEmail)
      if isRecipient then .ok (markReceivedQuo resp)
      else .error (.notFound "Quotation not found".data)

/-! ## Document creation -/

/-- A line-item DTO in a create request body.  `qty`/`rate` are `none`
when the field is absent or not a number (the code then defaults them to
1 and 0). -/
structure ItemDto where
  name : Option Str := none
  qty : Option Int := none
  rate : Option Int := none
  sort_order : Option Nat := none
deriving DecidableEq

/-- Invoice create request body.  The invoice controller ignores
`recipient_phone`/`recipient_email` even when a client sends them. -/
structure InvoiceBody where
  customer_id : Option Nat := none
  number : Option Str := none
  due_date : Option Str := none
  status : Option Str := none
  type : Option Str := none
  notes : Option Str := none
  include_gst : Option Bool := none
  payment_type : Option Str := none
  items : Option (List ItemDto) := none
  recipient_phone : Option Str := none
  recipient_email : Option Str := none
deriving DecidableEq

/-- Quotation create request body. -/
structure QuotationBody where
  customer_id : Option Nat := none
  quo_number : Option Str := none
  client_name : Option Str := none
  amount : Option Int := none
  date : Option Str := none
  valid_until : Option Str := none
  status : Option Str := none
  type : Option Str := none
  items : Option (List ItemDto) := none
  recipient_phone : Option Str := none
  recipient_email : Option Str := none
deriving DecidableEq

/-- Environment of a create call: outcomes of the fallible external
calls.  Storage errors on the primary writes are fatal; every
notification-channel failure is caught at its call site. -/
structure CreateEnv where
  insertDocErr : Option Str := none
  insertItemsErr : Option Str := none
  refetchOk : Bool := true
  today : Str := []
  senderMsgFails : Bool := false
  receiverMsgFails : List Nat := []
  pushChunkFails : List Nat := []
  mailConfigured : Bool := true
  mailFails : Bool := false
deriving DecidableEq

/-- Instrumentation of the notification fan-out: which side effects were
attempted (independently of whether they then failed). -/
structure FanoutLog where
  senderMsgAttempted : Bool := false
  receiverMsgAttempts : List Nat := []
  pushAttemptTokens : List Str := []
  mailServiceCalled : Bool := false
  mailSendCalled : Bool := false
deriving DecidableEq

/-- Result of a create call: the store afterwards, the HTTP outcome, and
the fan-out instrumentation. -/
structure InvoiceCreateOutcome where
  db : Db
  result : Except HttpError InvoiceResp
  log : FanoutLog := {}
deriving DecidableEq

/-- Result of a quotation create call. -/
structure QuotationCreateOutcome where
  db : Db
  result : Except HttpError QuotationResp
  log : FanoutLog := {}
deriving DecidableEq

/-- Recipient resolution in `InvoicesController.create`: only a found,
owner-scoped customer row contributes, with inline normalization
(`raw ? raw.replace(/\D/g,'').slice(-10) || null : null` for the phone,
`toLowerCase().trim() || null` for the email); the both-null rejection
happens only inside the `if (cust)` branch. -/
def invoiceCustPair (c : Customer) : Option Str × Option Str :=
  let raw := c.phone.map trimStr
  let rp := if truthy raw then
      (let d := sliceLast 10 (digitsOf (raw.getD []))
       if d.isEmpty then none else some d)
    else none
  let re := match c.email with
    | none => none
    | some e =>
      let v := trimStr (lowerStr e)
      if v.isEmpty then none else some v
  (rp, re)

def invoiceResolveRecipient (db : Db) (uid : Nat) (body : InvoiceBody) :
    Except HttpError (Option Str × Option Str) :=
  match body.customer_id with
  | none => .ok (none, none)
  | some cid =>
    match findCustomer db cid uid with
    | none => .ok (none, none)
    | some c =>
      let pr := invoiceCustPair c
      if pr.1 = none ∧ pr.2 = none then
        .error (.badRequest "Customer must have a phone number or email so the recipient can see this invoice when they sign up.".data)
      else .ok pr

/-- Recipient resolution in `QuotationsController.create`: customer
fields through `phoneForStorage`/`emailForStorage`, then explicit body
overrides through the same functions, then the unconditional both-null
rejection. -/
def quotationResolvedPair (db : Db) (uid : Nat) (body : QuotationBody) :
    Option Str × Option Str :=
  let fromCust : Option Str × Option Str :=
    match body.customer_id with
    | none => (none, none)
    | some cid =>
      match findCustomer db cid uid with
      | none => (none, none)
      | some c => (phoneForStorage c.phone, emailForStorage c.email)
  let manualPhone := phoneForStorage body.recipient_phone
  let manualEmail := emailForStorage body.recipient_email
  (if manualPhone.isSome then manualPhone else fromCust.1,
   if manualEmail.isSome then manualEmail else fromCust.2)

def quotationResolveRecipient (db : Db) (uid : Nat) (body : QuotationBody) :
    Except HttpError (Option Str × Option Str) :=
  let rp := (quotationResolvedPair db uid body).1
  let re := (quotationResolvedPair db uid body).2
  if rp = none ∧ re = none then
    .error (.badRequest "Customer must have a phone or email, or provide recipient_phone/recipient_email, so the recipient can see this quotation when they sign up.".data)
  else .ok (rp, re)

/-- Line items built for insertion (`items.map((item, idx) => ...)`). -/
def buildInvoiceItems (docId : Nat) (items : List ItemDto) : List InvoiceItem :=
  items.mapIdx fun idx it =>
    { invoice_id := docId,
      name := if truthy it.name then it.name.getD [] else "Item".data,
      qty := it.qty.getD 1,
      rate := it.rate.getD 0,
      sort_order := it.sort_order.getD idx }

/-- Line items built for insertion into `quotation_items`. -/
def buildQuotationItems (docId : Nat) (items : List ItemDto) : List QuotationItem :=
  items.mapIdx fun idx it =>
    { quotation_id := docId,
      name := if truthy it.name then it.name.getD [] else "Item".data,
      qty := it.qty.getD 1,
      rate := it.rate.getD 0,
      sort_order := it.sort_order.getD idx }

/-- Insert an in-app message unless the environment makes this insert
throw (the controller catches the failure either way). -/
def tryInsertMessage (fails : Bool) (db : Db) (uid : Nat) : Db :=
  if fails then db else { db with messages := db.messages ++ [{ user_id := uid }] }

/-- Notification fan-out of `InvoicesController.create`: sender message,
one message per resolved receiver (each insert failure caught
independently), then the customer email when it passes the inline regex
(send failure caught; no transporter means log-only). -/
def invoiceFanout (env : CreateEnv) (db : Db) (uid : Nat) (resp : InvoiceResp)
    (rPhone rEmail : Option Str) : Db × FanoutLog :=
  let db1 := tryInsertMessage env.senderMsgFails db uid
  let receiverIds := invoiceReceiverIds db.profiles uid rPhone rEmail
  let db2 := receiverIds.foldl
    (fun d rid => tryInsertMessage (decide (rid ∈ env.receiverMsgFails)) d rid) db1
  let customerEmail := (resp.customer.bind Customer.email).map trimStr
  let mailCond := truthy customerEmail && emailRegexMatch (customerEmail.getD [])
  (db2,
   { senderMsgAttempted := true,
     receiverMsgAttempts := receiverIds,
     pushAttemptTokens := [],
     mailServiceCalled := mailCond,
     mailSendCalled := mailCond && env.mailConfigured })

/-- `drop`-based chunking of the push payload list (Expo chunks of 100). -/
def chunkTokens (l : List Str) : List (List Str) :=
  if l.isEmpty then [] else l.take 100 :: chunkTokens (l.drop 100)
termination_by l.length
decreasing_by
  cases l with
  | nil => simp [List.isEmpty] at *
  | cons c t => simp only [List.length_drop, List.length_cons]; omega

/-- `PushService.sendMany`: filter to well-formed Expo tokens, chunk, and
send each chunk with its own `try/catch`.  Returns the tokens actually
handed to the transport (all valid ones, regardless of per-chunk
failures). -/
def sendMany (tokens : List Str) : List Str :=
  let valid := tokens.filter fun t => !t.isEmpty && isExpoPushToken t
  (chunkTokens valid).flatten

/-- Notification fan-out of `QuotationsController.create`: sender
message, receiver messages, then push payloads for the sender token and
each receiver token that is present, sent through `sendMany`. -/
def quotationFanout (env : CreateEnv) (db : Db) (uid : Nat) (_resp : QuotationResp)
    (rPhone rEmail : Option Str) : Db × FanoutLog :=
  let db1 := tryInsertMessage env.senderMsgFails db uid
  let receiverIds := quotationReceiverIds db.profiles uid rPhone rEmail
  let db2 := receiverIds.foldl
    (fun d rid => tryInsertMessage (decide (rid ∈ env.receiverMsgFails)) d rid) db1
  let senderToken := (findProfile db uid).bind Profile.expo_push_token
  let pushRecipients :=
    (if truthy senderToken then [senderToken.getD []] else []) ++
    receiverIds.foldr
      (fun rid acc =>
        let tok := (findProfile db rid).bind Profile.expo_push_token
        (if truthy tok then [tok.getD []] else []) ++ acc) []
  let attempted := if pushRecipients.isEmpty then [] else sendMany pushRecipients
  (db2,
   { senderMsgAttempted := true,
     receiverMsgAttempts := receiverIds,
     pushAttemptTokens := attempted,
     mailServiceCalled := false,
     mailSendCalled := false })

/-- `InvoicesController.create` (the controller with recipient
matching): number validation, recipient resolution, document insert,
line-item insert, re-fetch, fan-out, and the `resolved` response. -/
def invoiceCreate (env : CreateEnv) (db : Db) (uid : Nat) (body : InvoiceBody) :
    InvoiceCreateOutcome :=
  if !truthy (body.number.map trimStr) then
    ⟨db, .error (.badRequest "Invoice number is required".data), {}⟩
  else
    match invoiceResolveRecipient db uid body with
    | .error e => ⟨db, .error e, {}⟩
    | .ok (rp, re) =>
      let payload : Invoice :=
        { id := db.nextId, user_id := uid, customer_id := body.customer_id,
          recipient_phone := rp, recipient_email := re,
          number := trimStr (body.number.getD []),
          due_date := if truthy body.due_date then body.due_date else none,
          status := if truthy body.status then body.status.getD [] else "pending".data,
          type := if truthy body.type then body.type.getD [] else "sent".data,
          notes := if truthy body.notes then body.notes else none,
          include_gst := body.include_gst.getD true,
          payment_type := if truthy body.payment_type then body.payment_type else none }
      match env.insertDocErr with
      | some m => ⟨db, .error (.badRequest m), {}⟩
      | none =>
        let db1 := { db with invoices := db.invoices ++ [payload], nextId := db.nextId + 1 }
        let items := body.items.getD []
        if 0 < items.length ∧ env.insertItemsErr.isSome then
          ⟨db1, .error (.badRequest (env.insertItemsErr.getD [])), {}⟩
        else
          let db2 :=
            if 0 < items.length then
              { db1 with invoice_items := db1.invoice_items ++ buildInvoiceItems payload.id items }
            else db1
          let resp : InvoiceResp :=
            if env.refetchOk then
              { invoice := payload, items := invoiceItemsOf db2 payload.id,
                customer := joinedCustomer db2 payload.customer_id }
            else { invoice := payload }
          let fb := invoiceFanout env db2 uid resp rp re
          ⟨fb.1, .ok resp, fb.2⟩

/-- `QuotationsController.create`. -/
def quotationCreate (env : CreateEnv) (db : Db) (uid : Nat) (body : QuotationBody) :
    QuotationCreateOutcome :=
  if !truthy (body.quo_number.map trimStr) then
    ⟨db, .error (.badRequest "Quote number is required".data), {}⟩
  else
    match quotationResolveRecipient db uid body with
    | .error e => ⟨db, .error e, {}⟩
    | .ok (rp, re) =>
      let payload : Quotation :=
        { id := db.nextId, user_id := uid, customer_id := body.customer_id,
          recipient_phone := rp, recipient_email := re,
          quo_number := trimStr (body.quo_number.getD []),
          client_name := if truthy body.client_name then body.client_name else none,
          amount := body.amount.getD 0,
          date := if truthy body.date then body.date.getD [] else env.today,
          version := "v1".data,
          valid_until := if truthy body.valid_until then body.valid_until else none,
          view_status := none,
          status := if truthy body.status then body.status.getD [] else "draft".data,
          type := if truthy body.type then body.type.getD [] else "sent".data }
      match env.insertDocErr with
      | some m => ⟨db, .error (.badRequest m), {}⟩
      | none =>
        let db1 := { db with quotations := db.quotations ++ [payload], nextId := db.nextId + 1 }
        let items := body.items.getD []
        if 0 < items.length ∧ env.insertItemsErr.isSome then
          ⟨db1, .error (.badRequest (env.insertItemsErr.getD [])), {}⟩
        else
          let db2 :=
            if 0 < items.length then
              { db1 with quotation_items := db1.quotation_items ++ buildQuotationItems payload.id items }
            else db1
          let resp : QuotationResp :=
            if env.refetchOk then
              { quotation := payload, items := quotationItemsOf db2 payload.id,
                customer := joinedCustomer db2 payload.customer_id }
            else { quotation := payload }
          let fb := quotationFanout env db2 uid resp rp re
          ⟨fb.1, .ok resp, fb.2⟩

/-! ## Document update -/

/-- Invoice update request body (`Patch(':id')`). -/
structure InvoiceUpdateBody where
  customer_id : Option Nat := none
  number : Option Str := none
  due_date : Option Str := none
  status : Option Str := none
  type : Option Str := none
  notes : Option Str := none
  include_gst : Option Bool := none
  payment_type : Option Str := none
deriving DecidableEq

/-- `update(body)` applied to one row: only supplied keys change. -/
def applyInvoiceUpdate (inv : Invoice) (body : InvoiceUpdateBody) : Invoice :=
  { inv with
    customer_id := body.customer_id.elim inv.customer_id some,
    number := body.number.getD inv.number,
    due_date := body.due_date.elim inv.due_date some,
    status := body.status.getD inv.status,
    type := body.type.getD inv.type,
    notes := body.notes.elim inv.notes some,
    include_gst := body.include_gst.getD inv.include_gst,
    payment_type := body.payment_type.elim inv.payment_type some }

/-- `InvoicesController.update`: owner-scoped update returning the
changed row; `single()` errors when no row matched. -/
def invoiceUpdate (db : Db) (uid id : Nat) (body : InvoiceUpdateBody) :
    Db × Except HttpError Invoice :=
  match db.invoices.find? (fun i => i.id == id && i.user_id == uid) with
  | none => (db, .error (.badRequest "No rows found".data))
  | some inv =>
    let inv2 := applyInvoiceUpdate inv body
    ({ db with invoices := db.invoices.map fun i =>
        if i.id == id && i.user_id == uid then applyInvoiceUpdate i body else i },
     .ok inv2)

/-! ## Normalization on the profile/customer write paths -/

/-- `ProfilesController.updateMe` phone entry:
`body.phone?.trim()?.replace(/\D/g,'') || ''`, stored as the last 10
digits when at least 10 remain, else null. -/
def profilePhonePatch (v : Str) : Option Str :=
  let d := digitsOf (trimStr v)
  if 10 ≤ d.length then some (sliceLast 10 d) else none

/-- `ProfilesController.updateMe` email entry: `body.email?.trim() || null`
(no lowercasing, no validation). -/
def profileEmailPatch (v : Str) : Option Str :=
  let t := trimStr v
  if t.isEmpty then none else some t

/-- `CustomersController.create` phone column. -/
def customerCreatePhone (v : Option Str) : Option Str := phoneForStorage v

/-- `CustomersController.create` email column. -/
def customerCreateEmail (v : Option Str) : Option Str := emailForStorage v

/-- `CustomersController.update` phone entry: `phoneForStorage(body.phone) ?? null`. -/
def customerUpdatePhone (v : Str) : Option Str := phoneForStorage (some v)

/-- `CustomersController.update` email entry:
`emailForStorage(body.email) || body.email?.trim() || null` — the raw
trimmed value is kept when validation fails. -/
def customerUpdateEmail (v : Str) : Option Str :=
  match emailForStorage (some v) with
  | some e => some e
  | none =>
    let t := trimStr v
    if t.isEmpty then none else some t

/-- Canonical stored phone: exactly 10 digits. -/
def canonicalPhone (p : Str) : Prop :=
  p.length = 10 ∧ p.all isDigit = true

instance (p : Str) : Decidable (canonicalPhone p) := by
  unfold canonicalPhone
  infer_instance

/-- Canonical stored email: trimmed, lowercased, and regex-valid. -/
def canonicalEmail (e : Str) : Prop :=
  trimStr e = e ∧ lowerStr e = e ∧ emailRegexMatch e = true

instance (e : Str) : Decidable (canonicalEmail e) := by
  unfold canonicalEmail
  infer_instance

/-! ## OTP store (`otp.service.ts`) -/

/-- A stored one-time code with its expiry timestamp (ms). -/
structure StoredOtp where
  code : Str
  expiresAt : Nat
deriving DecidableEq

/-- The in-memory `Map` keyed by normalized email. -/
abbrev OtpStore := List (Str × StoredOtp)

/-- `Map.get`. -/
def storeGet (m : OtpStore) (k : Str) : Option StoredOtp :=
  (m.find? fun e => e.1 == k).map Prod.snd

/-- `Map.delete`. -/
def storeDelete (m : OtpStore) (k : Str) : OtpStore :=
  m.filter fun e => e.1 != k

/-- The key normalization `email.trim().toLowerCase()`. -/
def otpKey (email : Str) : Str := lowerStr (trimStr email)

/-- `OtpService.verifyOtpOnly`: returns the store afterwards and either
an error message or success.  The entry is deleted on success and on an
attempt after expiry; a wrong code only throws. -/
def verifyOtpOnly (store : OtpStore) (email code : Str) (now : Nat) :
    OtpStore × Except Str Unit :=
  let k := otpKey email
  match storeGet store k with
  | none => (store, .error "No OTP found for this email. Please request a new code.".data)
  | some st =>
    if st.expiresAt < now then
      (storeDelete store k, .error "OTP has expired. Please request a new code.".data)
    else if st.code ≠ trimStr code then
      (store, .error "Invalid verification code.".data)
    else
      (storeDelete store k, .ok ())

/-- A password-reset token entry. -/
structure StoredResetToken where
  email : Str
  expiresAt : Nat
deriving DecidableEq

/-- `OtpService.verifyOtp`: like `verifyOtpOnly` but on success also
stores a fresh reset token (15 minutes) and returns it. -/
def verifyOtp (store : OtpStore) (resetStore : List (Str × StoredResetToken))
    (email code : Str) (now : Nat) (freshToken : Str) :
    OtpStore × List (Str × StoredResetToken) × Except Str Str :=
  let k := otpKey email
  match storeGet store k with
  | none => (store, resetStore,
      .error "No OTP found for this email. Please request a new code.".data)
  | some st =>
    if st.expiresAt < now then
      (storeDelete store k, resetStore,
       .error "OTP has expired. Please request a new code.".data)
    else if st.code ≠ trimStr code then
      (store, resetStore, .error "Invalid verification code.".data)
    else
      (storeDelete store k,
       resetStore ++ [(freshToken, { email := k, expiresAt := now + 15 * 60 * 1000 })],
       .ok freshToken)

/-- The caller's canonical phone as the get-by-id handlers compute it:
`normalizePhone(profile?.phone ?? meta?.phone)`. -/
def callerPhoneIdentity (db : Db) (caller : AuthUser) : Str :=
  normalizePhone (coalesce ((findProfile db caller.id).bind Profile.phone) caller.meta_phone)

/-- The caller's canonical email as the get-by-id handlers compute it:
lowercased, trimmed `profile?.email ?? req.user.email ?? ''`. -/
def callerEmailIdentity (db : Db) (caller : AuthUser) : Str :=
  normalizeEmail (coalesce ((findProfile db caller.id).bind Profile.email) caller.email)

/-- The get-by-id recipient match: non-empty canonical phone equality or
non-empty canonical email equality. -/
def recipientMatches (myPhone myEmail rPhone rEmail : Str) : Prop :=
  (myPhone ≠ [] ∧ myPhone = rPhone) ∨ (myEmail ≠ [] ∧ myEmail = rEmail)

instance (a b c d : Str) : Decidable (recipientMatches a b c d) := by
  unfold recipientMatches
  infer_instance

/-- Concrete fixture: an invoice addressed to phone `9876543210`. -/
def sampleInvoice : Invoice :=
  { id := 7, user_id := 1, recipient_phone := some "9876543210".data,
    number := "I".data, status := "pending".data, type := "sent".data }

/-- Concrete fixture: a store holding `sampleInvoice` and a profile whose
raw phone normalizes to the invoice's recipient phone. -/
def sampleDb : Db :=
  { invoices := [sampleInvoice],
    profiles := [{ id := 2, phone := some "+91 9876543210".data }] }

/-- Concrete fixture: a profile whose stored identity differs from the
auth-provider identity in every component. -/
def sampleProfileFull : Profile :=
  { id := 2, phone := some "1111111111".data, email := some "p@x.com".data }

/-- Concrete fixture: an auth caller with distinct primary and metadata
identities. -/
def sampleUserFull : AuthUser :=
  { id := 2, email := some "a@x.com".data, meta_phone := some "2222222222".data,
    meta_email := some "b@x.com".data }

/-- Concrete fixture: an invoice create body carrying `type: received`. -/
def recvTypeBody : InvoiceBody :=
  { number := some "I".data, type := some "received".data }

/-- Concrete fixture: an invoice create body with no type. -/
def plainBody : InvoiceBody := { number := some "I".data }

/-- Concrete fixture: the row `plainBody` creates in an empty store. -/
def sentInvoiceRow : Invoice :=
  { id := 0, user_id := 1, number := "I".data, status := "pending".data,
    type := "sent".data }

/-- Concrete fixture: a quotation create body with neither customer nor
recipient overrides. -/
def quoBodyNoRecip : QuotationBody := { quo_number := some "Q".data }

/-- Concrete fixture: an environment in which every notification channel
fails and no mail transport is configured. -/
def failingEnv : CreateEnv :=
  { senderMsgFails := true, receiverMsgFails := [2], pushChunkFails := [0],
    mailConfigured := false, mailFails := true }

/-! ## Helper lemmas -/

theorem toNat_ofNat_valid (n : Nat) (h : n.isValidChar) : (Char.ofNat n).toNat = n := by
  rw [Char.ofNat, dif_pos h]
  simp [Char.toNat, Char.ofNatAux, UInt32.ofNat', UInt32.toNat, BitVec.toNat_ofNatLt]

theorem char_eq_iff_toNat (c d : Char) : c = d ↔ c.toNat = d.toNat :=
  ⟨fun h => by rw [h], fun h => Char.ext (UInt32.ext h)⟩

theorem toLower_toLower (c : Char) : Char.toLower (Char.toLower c) = Char.toLower c := by
  unfold Char.toLower
  by_cases h : Char.toNat c ≥ 65 ∧ Char.toNat c ≤ 90
  · have hv : (Char.toNat c + 32).isValidChar := Or.inl (by omega)
    rw [if_pos h]
    simp only [toNat_ofNat_valid _ hv]
    rw [if_neg (by omega)]
  · rw [if_neg h, if_neg h]

theorem isSpace_toLower (c : Char) : isSpace (Char.toLower c) = isSpace c := by
  simp only [isSpace]
  unfold Char.toLower
  by_cases h : Char.toNat c ≥ 65 ∧ Char.toNat c ≤ 90
  · have hv : (Char.toNat c + 32).isValidChar := Or.inl (by omega)
    rw [if_pos h]
    have h1 : (Char.ofNat (Char.toNat c + 32)).toNat = Char.toNat c + 32 :=
      toNat_ofNat_valid _ hv
    simp only [Char.isWhitespace, char_eq_iff_toNat, h1]
    have hsp : (' ' : Char).toNat = 32 := by decide
    have ht : ('\t' : Char).toNat = 9 := by decide
    have hr : ('\r' : Char).toNat = 13 := by decide
    have hn : ('\n' : Char).toNat = 10 := by decide
    rw [hsp, ht, hr, hn]
    have l1 : Char.toNat c + 32 ≠ 32 := by omega
    have l2 : Char.toNat c + 32 ≠ 9 := by omega
    have l3 : Char.toNat c + 32 ≠ 13 := by omega
    have l4 : Char.toNat c + 32 ≠ 10 := by omega
    have r1 : Char.toNat c ≠ 32 := by omega
    have r2 : Char.toNat c ≠ 9 := by omega
    have r3 : Char.toNat c ≠ 13 := by omega
    have r4 : Char.toNat c ≠ 10 := by omega
    simp [l1, l2, l3, l4, r1, r2, r3, r4]
  · rw [if_neg h]

theorem lowerStr_lowerStr (s : Str) : lowerStr (lowerStr s) = lowerStr s := by
  simp only [lowerStr, List.map_map]
  exact List.map_congr_left fun c _ => toLower_toLower c

theorem dropWhile_of_forall_neg (p : Char → Bool) (l : Str) (h : ∀ c ∈ l, ¬ p c = true) :
    List.dropWhile p l = l := by
  cases l with
  | nil => rfl
  | cons c t =>
    rw [List.dropWhile_cons_of_neg]
    exact h c (by simp)

theorem trimStr_of_no_space (s : Str) (h : ∀ c ∈ s, isSpace c = false) : trimStr s = s := by
  have h1 : List.dropWhile isSpace s = s :=
    dropWhile_of_forall_neg _ _ fun c hc => by simp [h c hc]
  have h2 : List.dropWhile isSpace s.reverse = s.reverse :=
    dropWhile_of_forall_neg _ _ fun c hc => by simp [h c (List.mem_reverse.mp hc)]
  simp [trimStr, h1, h2]

theorem dropWhile_isSpace_map_toLower (l : Str) :
    List.dropWhile isSpace (List.map Char.toLower l) =
      List.map Char.toLower (List.dropWhile isSpace l) := by
  rw [List.dropWhile_map]
  have h : (isSpace ∘ Char.toLower) = isSpace := funext fun c => isSpace_toLower c
  rw [h]

theorem lowerStr_trimStr (s : Str) : lowerStr (trimStr s) = trimStr (lowerStr s) := by
  simp only [trimStr, lowerStr]
  rw [List.map_reverse, ← dropWhile_isSpace_map_toLower, List.map_reverse,
    ← dropWhile_isSpace_map_toLower]

theorem length_sliceLast (n : Nat) (s : Str) : (sliceLast n s).length = min n s.length := by
  simp only [sliceLast, List.length_drop]
  omega

theorem all_sliceLast (p : Char → Bool) (n : Nat) (s : Str) (h : s.all p = true) :
    (sliceLast n s).all p = true := by
  simp only [List.all_eq_true] at h ⊢
  exact fun c hc => h c (List.mem_of_mem_drop hc)

theorem all_digitsOf (s : Str) : (digitsOf s).all isDigit = true := by
  simp only [digitsOf, List.all_eq_true]
  exact fun c hc => (List.mem_filter.mp hc).2

theorem mem_setAdd (l : List Nat) (y x : Nat) : x ∈ setAdd l y ↔ x ∈ l ∨ x = y := by
  simp only [setAdd]
  by_cases h : y ∈ l
  · rw [if_pos h]
    constructor
    · exact Or.inl
    · rintro (hx | rfl)
      · exact hx
      · exact h
  · rw [if_neg h]
    simp

theorem nodup_setAdd (l : List Nat) (y : Nat) (h : l.Nodup) : (setAdd l y).Nodup := by
  simp only [setAdd]
  by_cases hy : y ∈ l
  · rwa [if_pos hy]
  · rw [if_neg hy]
    simpa [List.nodup_append] using ⟨h, hy⟩

theorem mem_setAddAll (xs l : List Nat) (x : Nat) :
    x ∈ setAddAll l xs ↔ x ∈ l ∨ x ∈ xs := by
  induction xs generalizing l with
  | nil => simp [setAddAll]
  | cons y t ih =>
    simp only [setAddAll, List.foldl_cons] at *
    rw [ih (setAdd l y), mem_setAdd]
    simp only [List.mem_cons]
    tauto

theorem nodup_setAddAll (xs l : List Nat) (h : l.Nodup) : (setAddAll l xs).Nodup := by
  induction xs generalizing l with
  | nil => exact h
  | cons y t ih => exact ih (setAdd l y) (nodup_setAdd l y h)

theorem setAddAll_nil_eq_nil (xs : List Nat) : setAddAll [] xs = [] ↔ xs = [] := by
  constructor
  · intro h
    cases xs with
    | nil => rfl
    | cons y t =>
      exfalso
      have : y ∈ setAddAll [] (y :: t) := by
        rw [mem_setAddAll]
        simp
      rw [h] at this
      simp at this
  · rintro rfl
    rfl

theorem mem_filterMapId (profiles : List Profile) (f : Profile → Bool) (x : Nat) :
    x ∈ (profiles.filter f).map Profile.id ↔ ∃ p ∈ profiles, p.id = x ∧ f p = true := by
  simp only [List.mem_map, List.mem_filter]
  constructor
  · rintro ⟨p, ⟨hp, hf⟩, rfl⟩
    exact ⟨p, hp, rfl, hf⟩
  · rintro ⟨p, hp, rfl, hf⟩
    exact ⟨p, ⟨hp, hf⟩, rfl⟩

/-! ## C7 — phone normalization -/

/-- C7 (counterexample): `normalizePhone("12345")` is `"12345"` — neither
of length 10 nor the empty string, refuting the claimed dichotomy that
inputs with fewer than 10 digits normalize to the empty string. -/
theorem phone_normalization_claim_cex :
    normalizePhone (some "12345".data) = "12345".data ∧
    ¬((normalizePhone (some "12345".data)).length = 10 ∨
      normalizePhone (some "12345".data) = []) := by decide

/-- C7 (amended): `normalizePhone` always returns a digits-only string of
length at most 10 — exactly 10 when at least 10 digits survive stripping,
and all surviving digits when fewer remain; `phoneForStorage` returns
null exactly when fewer than 10 digits remain, else the last 10 digits;
the specification's two examples hold. -/
theorem phone_normalization_amended :
    (∀ s : Option Str,
      (normalizePhone s).all isDigit = true ∧
      (normalizePhone s).length ≤ 10 ∧
      (10 ≤ (digitsOf (s.getD [])).length → (normalizePhone s).length = 10) ∧
      ((digitsOf (s.getD [])).length < 10 →
        normalizePhone s = if truthy s = true then digitsOf (s.getD []) else []) ∧
      (phoneForStorage s = none ↔ (digitsOf (s.getD [])).length < 10) ∧
      (∀ d, phoneForStorage s = some d → d.length = 10 ∧ d.all isDigit = true)) ∧
    phoneForStorage (some "+91 98765-43210".data) = some "9876543210".data ∧
    phoneForStorage (some "12345".data) = none := by
  refine ⟨?_, by decide, by decide⟩
  intro s
  have hdig := all_digitsOf (s.getD [])
  have hlen := length_sliceLast 10 (digitsOf (s.getD []))
  have hempty : truthy s = false → digitsOf (s.getD []) = [] := by
    intro ht
    cases s with
    | none => rfl
    | some v =>
      cases v with
      | nil => rfl
      | cons c t => simp [truthy] at ht
  refine ⟨?_, ?_, ?_, ?_, ?_, ?_⟩
  · by_cases ht : truthy s = true
    · simp only [normalizePhone, ht]
      simp only [Bool.true_eq_false, if_false]
      exact all_sliceLast _ _ _ hdig
    · have ht' : truthy s = false := by
        cases h : truthy s
        · rfl
        · exact absurd h ht
      simp [normalizePhone, ht']
  · by_cases ht : truthy s = true
    · simp only [normalizePhone, ht, Bool.true_eq_false, if_false]
      omega
    · have ht' : truthy s = false := by
        cases h : truthy s
        · rfl
        · exact absurd h ht
      simp [normalizePhone, ht']
  · intro h10
    by_cases ht : truthy s = true
    · simp only [normalizePhone, ht, Bool.true_eq_false, if_false]
      omega
    · have ht' : truthy s = false := by
        cases h : truthy s
        · rfl
        · exact absurd h ht
      rw [hempty ht'] at h10
      simp at h10
  · intro hlt
    by_cases ht : truthy s = true
    · simp only [normalizePhone, ht, Bool.true_eq_false, if_false, if_true]
      simp only [sliceLast]
      rw [Nat.sub_eq_zero_of_le (by omega), List.drop_zero]
    · have ht' : truthy s = false := by
        cases h : truthy s
        · rfl
        · exact absurd h ht
      simp [normalizePhone, ht']
  · simp only [phoneForStorage]
    by_cases h : (digitsOf (s.getD [])).length < 10
    · simp [h]
    · simp [h]
  · intro d hd
    simp only [phoneForStorage] at hd
    by_cases h : (digitsOf (s.getD [])).length < 10
    · simp [h] at hd
    · simp only [h, if_false] at hd
      have hd' : d = sliceLast 10 (digitsOf (s.getD [])) := (Option.some.inj hd).symm
      subst hd'
      exact ⟨by omega, all_sliceLast _ _ _ hdig⟩

/-- C7 (witness): the amended theorem applied at `"+91 98765-43210"`. -/
theorem phone_normalization_amended_witness :
    10 ≤ (digitsOf ((some "+91 98765-43210".data).getD [])).length ∧
    (normalizePhone (some "+91 98765-43210".data)).length = 10 :=
  ⟨by decide,
   (phone_normalization_amended.1 (some "+91 98765-43210".data)).2.2.1 (by decide)⟩

/-! ## C8 — email validation for storage -/

/-- C8 (counterexample): `"a@b@c.d"` matches the specification's literal
pattern (chunks of non-space characters around `'@'` and `'.'`), yet
`emailForStorage` returns null, because the code's character class also
excludes `'@'` from every chunk. -/
theorem email_pattern_claim_cex :
    emailSpecPattern (normalizeEmail (some "a@b@c.d".data)) = true ∧
    emailForStorage (some "a@b@c.d".data) = none := by decide

/-- C8 (amended): `emailForStorage` returns the lowercased, trimmed input
exactly when that normalized value matches the storage regex (chunks that
exclude whitespace and `'@'`, so exactly one `'@'`), and null otherwise;
the specification's two examples hold. -/
theorem email_for_storage_amended :
    (∀ e : Option Str,
      emailForStorage e =
        if emailRegexMatch (normalizeEmail e) = true then some (normalizeEmail e)
        else none) ∧
    emailForStorage (some " User@Example.COM ".data) = some "user@example.com".data ∧
    emailForStorage (some "not-an-email".data) = none := by
  refine ⟨?_, by decide, by decide⟩
  intro e
  simp only [emailForStorage]
  by_cases hm : emailRegexMatch (normalizeEmail e) = true
  · have hne : (normalizeEmail e).isEmpty = false := by
      cases hn : normalizeEmail e with
      | nil =>
        rw [hn] at hm
        exact absurd hm (by decide)
      | cons c t => rfl
    simp [hm, hne]
  · have hm' : emailRegexMatch (normalizeEmail e) = false := by
      cases h2 : emailRegexMatch (normalizeEmail e)
      · rfl
      · exact absurd h2 hm
    simp [hm']

/-! ## C9 — canonical form on the write paths -/

theorem phoneForStorage_some (s : Option Str) (d : Str)
    (h : phoneForStorage s = some d) : canonicalPhone d := by
  simp only [phoneForStorage] at h
  by_cases hl : (digitsOf (s.getD [])).length < 10
  · simp [hl] at h
  · simp only [hl, if_false] at h
    have hd : d = sliceLast 10 (digitsOf (s.getD [])) := (Option.some.inj h).symm
    subst hd
    have := length_sliceLast 10 (digitsOf (s.getD []))
    exact ⟨by omega, all_sliceLast _ _ _ (all_digitsOf _)⟩

theorem emailRegexMatch_no_space (e : Str) (h : emailRegexMatch e = true) :
    ∀ c ∈ e, isSpace c = false := by
  simp only [emailRegexMatch, Bool.and_eq_true] at h
  have h1 := h.1.1.1
  simp only [List.all_eq_true] at h1
  intro c hc
  have := h1 c hc
  simpa using this

theorem emailForStorage_some_canonical (x : Option Str) (e : Str)
    (h : emailForStorage x = some e) : canonicalEmail e := by
  simp only [emailForStorage] at h
  by_cases hb : ((normalizeEmail x).isEmpty || !emailRegexMatch (normalizeEmail x)) = true
  · simp [hb] at h
  · simp only [hb, if_false] at h
    have he : e = normalizeEmail x := (Option.some.inj h).symm
    simp only [Bool.or_eq_true, Bool.not_eq_true'] at hb
    push_neg at hb
    have hm : emailRegexMatch (normalizeEmail x) = true := by
      cases h2 : emailRegexMatch (normalizeEmail x)
      · exact absurd h2 hb.2
      · rfl
    subst he
    refine ⟨trimStr_of_no_space _ (emailRegexMatch_no_space _ hm), ?_, hm⟩
    cases x with
    | none =>
      simp [normalizeEmail] at hm
      exact absurd hm (by decide)
    | some w =>
      show lowerStr (trimStr (lowerStr w)) = trimStr (lowerStr w)
      rw [lowerStr_trimStr, lowerStr_lowerStr]

/-- C9 (counterexample): the profile-update path stores
`" User@Example.COM "` as `"User@Example.COM"` (trimmed only), and the
customer-update path stores `"not-an-email"` raw; neither stored value is
canonical, refuting the claimed invariant. -/
theorem write_path_normalization_claim_cex :
    profileEmailPatch " User@Example.COM ".data = some "User@Example.COM".data ∧
    ¬ canonicalEmail "User@Example.COM".data ∧
    customerUpdateEmail "not-an-email".data = some "not-an-email".data ∧
    ¬ canonicalEmail "not-an-email".data := by decide

/-- C9 (amended): every phone persisted by the profile-update and
customer create/update paths is canonical (exactly the last 10 digits) or
null, and customer-create emails are canonical or null; but the
customer-update path falls back to the raw trimmed email when validation
fails, and the profile-update path stores the trimmed email with no
lowercasing or validation at all. -/
theorem write_path_normalization_amended :
    (∀ v d, profilePhonePatch v = some d → canonicalPhone d) ∧
    (∀ v d, customerCreatePhone v = some d → canonicalPhone d) ∧
    (∀ v d, customerUpdatePhone v = some d → canonicalPhone d) ∧
    (∀ v e, customerCreateEmail v = some e → canonicalEmail e) ∧
    (∀ v, profileEmailPatch v =
      if (trimStr v).isEmpty = true then none else some (trimStr v)) ∧
    (∀ v e, emailForStorage (some v) = some e → customerUpdateEmail v = some e) ∧
    (∀ v, emailForStorage (some v) = none →
      customerUpdateEmail v =
        if (trimStr v).isEmpty = true then none else some (trimStr v)) := by
  refine ⟨?_, ?_, ?_, ?_, ?_, ?_, ?_⟩
  · intro v d h
    simp only [profilePhonePatch] at h
    by_cases hl : 10 ≤ (digitsOf (trimStr v)).length
    · simp only [hl, if_true] at h
      have hd : d = sliceLast 10 (digitsOf (trimStr v)) := (Option.some.inj h).symm
      subst hd
      have := length_sliceLast 10 (digitsOf (trimStr v))
      exact ⟨by omega, all_sliceLast _ _ _ (all_digitsOf _)⟩
    · simp [hl] at h
  · intro v d h
    exact phoneForStorage_some v d h
  · intro v d h
    exact phoneForStorage_some (some v) d h
  · intro v e h
    exact emailForStorage_some_canonical v e h
  · intro v
    rfl
  · intro v e h
    simp [customerUpdateEmail, h]
  · intro v h
    simp [customerUpdateEmail, h]

/-- C9 (witness): the amended theorem applied at a concrete phone. -/
theorem write_path_normalization_amended_witness :
    profilePhonePatch "+91 98765-43210".data = some "9876543210".data ∧
    canonicalPhone "9876543210".data :=
  ⟨by decide,
   write_path_normalization_amended.1 "+91 98765-43210".data "9876543210".data (by decide)⟩

/-! ## C10 — OTP retry behaviour -/

theorem storeGet_storeDelete (m : OtpStore) (k : Str) :
    storeGet (storeDelete m k) k = none := by
  have h : List.find? (fun e => e.1 == k) (m.filter fun e => e.1 != k) = none := by
    rw [List.find?_eq_none]
    intro x hx
    have hne := (List.mem_filter.mp hx).2
    simp only [bne, Bool.not_eq_true'] at hne
    simp [hne]
  simp [storeGet, storeDelete, h]

/-- C10: for a stored, unexpired OTP, a non-matching code makes both
`verifyOtp` and `verifyOtpOnly` fail while leaving the OTP store
unchanged, so a later call with the matching code inside the expiry
window still succeeds and removes the entry; the entry is removed only on
success or on an attempt made after expiry. -/
theorem otp_wrong_code_retry :
    ∀ (store : OtpStore) (rstore : List (Str × StoredResetToken))
      (email code : Str) (now : Nat) (st : StoredOtp) (tok : Str),
      storeGet store (otpKey email) = some st → now ≤ st.expiresAt →
      (st.code ≠ trimStr code →
        verifyOtpOnly store email code now =
          (store, .error "Invalid verification code.".data) ∧
        verifyOtp store rstore email code now tok =
          (store, rstore, .error "Invalid verification code.".data)) ∧
      (∀ code2 now2, trimStr code2 = st.code → now2 ≤ st.expiresAt →
        (verifyOtpOnly store email code2 now2).2 = .ok () ∧
        storeGet (verifyOtpOnly store email code2 now2).1 (otpKey email) = none ∧
        (verifyOtp store rstore email code2 now2 tok).2.2 = .ok tok) ∧
      (∀ code3 now3,
        (verifyOtpOnly store email code3 now3).1 ≠ store →
        (verifyOtpOnly store email code3 now3).2 = .ok () ∨ st.expiresAt < now3) := by
  intro store rstore email code now st tok hget hle
  refine ⟨?_, ?_, ?_⟩
  · intro hne
    constructor
    · simp only [verifyOtpOnly, hget]
      rw [if_neg (by omega), if_pos hne]
    · simp only [verifyOtp, hget]
      rw [if_neg (by omega), if_pos hne]
  · intro code2 now2 hcode hle2
    have hok : ¬ st.code ≠ trimStr code2 := fun h => h hcode.symm
    refine ⟨?_, ?_, ?_⟩
    · simp only [verifyOtpOnly, hget]
      rw [if_neg (by omega), if_neg hok]
    · simp only [verifyOtpOnly, hget]
      rw [if_neg (by omega), if_neg hok]
      exact storeGet_storeDelete store (otpKey email)
    · simp only [verifyOtp, hget]
      rw [if_neg (by omega), if_neg hok]
  · intro code3 now3 hchanged
    by_cases hexp : st.expiresAt < now3
    · exact Or.inr hexp
    · by_cases hc : st.code ≠ trimStr code3
      · exfalso
        apply hchanged
        simp only [verifyOtpOnly, hget]
        rw [if_neg (by omega), if_pos hc]
      · left
        simp only [verifyOtpOnly, hget]
        rw [if_neg (by omega), if_neg hc]

/-- C10 (witness): the theorem applied to a concrete store with a wrong
then a right code. -/
theorem otp_wrong_code_retry_witness :
    storeGet [("a@b.co".data, ⟨"123456".data, 1000⟩)] (otpKey "a@b.co".data) =
      some ⟨"123456".data, 1000⟩ ∧
    (500 : Nat) ≤ 1000 ∧
    "123456".data ≠ trimStr "999999".data ∧
    verifyOtpOnly [("a@b.co".data, ⟨"123456".data, 1000⟩)] "a@b.co".data "999999".data 500 =
      ([("a@b.co".data, ⟨"123456".data, 1000⟩)], .error "Invalid verification code.".data) :=
  ⟨by decide, by decide, by decide,
   ((otp_wrong_code_retry [("a@b.co".data, ⟨"123456".data, 1000⟩)] []
      "a@b.co".data "999999".data 500 ⟨"123456".data, 1000⟩ []
      (by decide) (by decide)).1 (by decide)).1⟩

/-! ## C3 — get-by-id recipient check -/

theorem normalizeEmail_getD (x : Option Str) :
    trimStr (lowerStr (x.getD [])) = normalizeEmail x := by
  cases x <;> rfl

theorem normalizeEmail_some_getD (x : Option Str) :
    normalizeEmail (some (x.getD [])) = normalizeEmail x := by
  cases x <;> rfl

theorem recip_pair_iff (p rp : Str) :
    ((!p.isEmpty && !rp.isEmpty && p == rp) = true) ↔ (p ≠ [] ∧ p = rp) := by
  simp only [Bool.and_eq_true, Bool.not_eq_true', beq_iff_eq]
  constructor
  · rintro ⟨⟨h1, h2⟩, h3⟩
    refine ⟨?_, h3⟩
    intro hnil
    rw [hnil] at h1
    simp at h1
  · rintro ⟨h1, h3⟩
    have hp : p.isEmpty = false := by
      cases p with
      | nil => exact absurd rfl h1
      | cons a t => rfl
    have hrp : rp.isEmpty = false := by
      rw [← h3]
      exact hp
    exact ⟨⟨hp, hrp⟩, h3⟩

theorem recip_cond_iff (p rp e re : Str) :
    (((!p.isEmpty && !rp.isEmpty && p == rp) ||
      (!e.isEmpty && !re.isEmpty && e == re)) = true) ↔
      recipientMatches p e rp re := by
  simp only [Bool.or_eq_true, recip_pair_iff, recipientMatches]

/-- C3: get-by-id on an invoice or quotation by a non-owner returns the
document with its `type` rewritten to `received` exactly when the
caller's resolved canonical phone or email matches the stored recipient
fields after normalization, and otherwise fails with a not-found error
that is the very same value produced for a document id that does not
exist. -/
theorem get_by_id_recipient_check :
    ∀ (db : Db) (caller : AuthUser) (id : Nat),
      (∀ inv, findInvoice db id = some inv → inv.user_id ≠ caller.id →
        (recipientMatches (callerPhoneIdentity db caller) (callerEmailIdentity db caller)
            (normalizePhone inv.recipient_phone) (normalizeEmail inv.recipient_email) →
          invoiceGet db caller id = .ok (markReceivedInv (invResponseOf db inv))) ∧
        (¬ recipientMatches (callerPhoneIdentity db caller) (callerEmailIdentity db caller)
            (normalizePhone inv.recipient_phone) (normalizeEmail inv.recipient_email) →
          invoiceGet db caller id = .error (.notFound "Invoice not found".data))) ∧
      (findInvoice db id = none →
        invoiceGet db caller id = .error (.notFound "Invoice not found".data)) ∧
      (∀ q, findQuotation db id = some q → q.user_id ≠ caller.id →
        (recipientMatches (callerPhoneIdentity db caller) (callerEmailIdentity db caller)
            (normalizePhone q.recipient_phone) (normalizeEmail q.recipient_email) →
          quotationGet db caller id = .ok (markReceivedQuo (quoResponseOf db q))) ∧
        (¬ recipientMatches (callerPhoneIdentity db caller) (callerEmailIdentity db caller)
            (normalizePhone q.recipient_phone) (normalizeEmail q.recipient_email) →
          quotationGet db caller id = .error (.notFound "Quotation not found".data))) ∧
      (findQuotation db id = none →
        quotationGet db caller id = .error (.notFound "Quotation not found".data)) := by
  intro db caller id
  refine ⟨?_, ?_, ?_, ?_⟩
  · intro inv hfind hne
    have hcond := recip_cond_iff (callerPhoneIdentity db caller)
      (normalizePhone inv.recipient_phone) (callerEmailIdentity db caller)
      (normalizeEmail inv.recipient_email)
    constructor
    · intro hm
      simp only [invoiceGet, hfind]
      rw [if_neg hne]
      simp only [callerPhoneIdentity, callerEmailIdentity, normalizeEmail_getD] at *
      rw [if_pos (hcond.mpr hm)]
    · intro hm
      simp only [invoiceGet, hfind]
      rw [if_neg hne]
      simp only [callerPhoneIdentity, callerEmailIdentity, normalizeEmail_getD] at *
      rw [if_neg fun hb => hm (hcond.mp hb)]
  · intro hnone
    simp [invoiceGet, hnone]
  · intro q hfind hne
    have hcond := recip_cond_iff (callerPhoneIdentity db caller)
      (normalizePhone q.recipient_phone) (callerEmailIdentity db caller)
      (normalizeEmail q.recipient_email)
    constructor
    · intro hm
      simp only [quotationGet, hfind]
      rw [if_neg hne]
      simp only [callerPhoneIdentity, callerEmailIdentity, normalizeEmail_some_getD] at *
      rw [if_pos (hcond.mpr hm)]
    · intro hm
      simp only [quotationGet, hfind]
      rw [if_neg hne]
      simp only [callerPhoneIdentity, callerEmailIdentity, normalizeEmail_some_getD] at *
      rw [if_neg fun hb => hm (hcond.mp hb)]
  · intro hnone
    simp [quotationGet, hnone]

/-- C3 (witness): on the concrete fixture store, a phone-matching
non-owner receives the invoice marked `received`, while a stranger gets
the same not-found error value as a nonexistent id. -/
theorem get_by_id_recipient_check_witness :
    findInvoice sampleDb 7 = some sampleInvoice ∧
    invoiceGet sampleDb { id := 2 } 7 =
      .ok (markReceivedInv (invResponseOf sampleDb sampleInvoice)) ∧
    invoiceGet sampleDb { id := 3 } 7 = .error (.notFound "Invoice not found".data) := by
  refine ⟨by decide, ?_, ?_⟩
  · exact ((get_by_id_recipient_check sampleDb { id := 2 } 7).1 sampleInvoice
      (by decide) (by decide)).1 (by decide)
  · exact ((get_by_id_recipient_check sampleDb { id := 3 } 7).1 sampleInvoice
      (by decide) (by decide)).2 (by decide)

/-! ## C4 — list-time identity resolution order -/

theorem jsOr_self (a : Option Str) : jsOr a a = a := by
  simp [jsOr]

theorem normalizePhone_eq_nil_of_falsy (x : Option Str) (h : truthy x = false) :
    normalizePhone x = [] := by
  simp [normalizePhone, h]

theorem truthy_false_cases (x : Option Str) (h : ¬ truthy x = true) : truthy x = false := by
  cases h2 : truthy x
  · rfl
  · exact absurd h2 h

theorem normalizePhone_jsOr_empty (x : Option Str) :
    normalizePhone (jsOr x (some [])) = normalizePhone x := by
  by_cases h : truthy x = true
  · simp [jsOr, h]
  · have h' := truthy_false_cases x h
    have hx : jsOr x (some []) = some [] := by simp [jsOr, h']
    rw [hx, normalizePhone_eq_nil_of_falsy x h',
      normalizePhone_eq_nil_of_falsy (some []) (by decide)]

theorem normalizeEmail_jsOr_empty (x : Option Str) :
    normalizeEmail (jsOr x (some [])) = normalizeEmail x := by
  by_cases h : truthy x = true
  · simp [jsOr, h]
  · have h' := truthy_false_cases x h
    have hx : jsOr x (some []) = some [] := by simp [jsOr, h']
    rw [hx]
    cases x with
    | none => rfl
    | some v =>
      cases v with
      | nil => rfl
      | cons c t => simp [truthy] at h'

theorem jsOr_coalesce_left (mp ap pp : Option Str) :
    jsOr (jsOr (coalesce mp ap) ap) pp = jsOr (jsOr mp ap) pp := by
  cases mp with
  | some v => rfl
  | none =>
    simp only [coalesce]
    rw [jsOr_self]
    have h2 : jsOr none ap = ap := by simp [jsOr, truthy]
    rw [h2]

theorem jsOr_coalesce_right (ae me pe : Option Str) :
    jsOr (jsOr ae (coalesce me ae)) pe = jsOr (jsOr ae me) pe := by
  cases me with
  | some w => rfl
  | none =>
    simp only [coalesce]
    rw [jsOr_self]
    by_cases h : truthy ae = true
    · have h2 : jsOr ae none = ae := by simp [jsOr, h]
      rw [h2]
    · have h' := truthy_false_cases ae h
      have h2 : jsOr ae none = none := by simp [jsOr, h']
      have h3 : jsOr ae pe = pe := by simp [jsOr, h']
      have h4 : jsOr (none : Option Str) pe = pe := by simp [jsOr, truthy]
      rw [h2, h3, h4]

/-- C4 (counterexample): with a complete stored profile and a different
auth-provider identity, the invoices list endpoint resolves the stored
profile fields (not the metadata) for both components, and the
quotations list endpoint prefers the auth-provider primary email over
metadata email — both differ from the claimed metadata-first order. -/
theorem list_identity_claim_cex :
    invoiceListIdentity (some sampleProfileFull) sampleUserFull ≠
      specListIdentity (some sampleProfileFull) sampleUserFull ∧
    quotationListIdentity (some sampleProfileFull) sampleUserFull ≠
      specListIdentity (some sampleProfileFull) sampleUserFull := by decide

/-- C4 (amended): the quotations list endpoint resolves phone as
metadata → auth primary → stored profile, but email as auth primary →
metadata → stored profile; the invoices list endpoint prefers the stored
profile row first for both components (profile → metadata for phone and
profile → auth primary → metadata for email, by null-coalescing). -/
theorem list_identity_resolution_amended :
    ∀ (profile : Option Profile) (user : AuthUser),
      quotationListIdentity profile user =
        (normalizePhone (jsOr (jsOr user.meta_phone user.phone) (profile.bind Profile.phone)),
         normalizeEmail (jsOr (jsOr user.email user.meta_email) (profile.bind Profile.email))) ∧
      invoiceListIdentity profile user =
        (normalizePhone (coalesce (profile.bind Profile.phone) user.meta_phone),
         normalizeEmail (coalesce (coalesce (profile.bind Profile.email) user.email)
           user.meta_email)) := by
  intro profile user
  constructor
  · simp only [quotationListIdentity]
    rw [normalizePhone_jsOr_empty, jsOr_coalesce_left,
      normalizeEmail_jsOr_empty, jsOr_coalesce_right]
  · simp only [invoiceListIdentity]
    rw [normalizeEmail_getD]

/-! ## C2 — receiver resolution -/

theorem mem_filterMapId_pred (profiles : List Profile) (senderId : Nat)
    (f : Profile → Bool) (x : Nat) :
    (x ∈ (profiles.filter fun p => p.id != senderId && f p).map Profile.id) ↔
      ∃ p, p ∈ profiles ∧ p.id = x ∧ p.id ≠ senderId ∧ f p = true := by
  rw [mem_filterMapId]
  constructor
  · rintro ⟨p, hp, rfl, hf⟩
    rw [Bool.and_eq_true, bne_iff_ne] at hf
    exact ⟨p, hp, rfl, hf.1, hf.2⟩
  · rintro ⟨p, hp, rfl, hne, hf⟩
    refine ⟨p, hp, rfl, ?_⟩
    rw [Bool.and_eq_true, bne_iff_ne]
    exact ⟨hne, hf⟩

theorem truthy_true_or_false (x : Option Str) : truthy x = true ∨ truthy x = false := by
  cases h : truthy x
  · exact Or.inr rfl
  · exact Or.inl rfl

theorem mem_receiverEmailStage (profiles : List Profile) (senderId : Nat)
    (rEmail : Option Str) (ids : List Nat) (x : Nat) :
    (x ∈ receiverEmailStage profiles senderId rEmail ids) ↔
      (x ∈ ids ∨ (truthy rEmail = true ∧
        ∃ p, p ∈ profiles ∧ p.id = x ∧ p.id ≠ senderId ∧
          emailMatchCI p (rEmail.getD []) = true)) := by
  simp only [receiverEmailStage]
  rcases truthy_true_or_false rEmail with he | he
  · rw [if_pos he, mem_setAddAll, mem_filterMapId_pred]
    simp [he]
  · rw [if_neg (by simp [he])]
    simp [he]

theorem mem_quotationPhoneStage (profiles : List Profile) (senderId : Nat)
    (rPhone : Option Str) (x : Nat) :
    (x ∈ quotationPhoneStage profiles senderId rPhone) ↔
      (truthy rPhone = true ∧
        ∃ p, p ∈ profiles ∧ p.id = x ∧ p.id ≠ senderId ∧
          (phoneEq p (rPhone.getD []) = true ∨ phoneEndsWithCI p (rPhone.getD []) = true)) := by
  simp only [quotationPhoneStage]
  rcases truthy_true_or_false rPhone with hp | hp
  · rw [if_pos hp, if_pos (by rfl), mem_setAddAll, List.mem_append,
      mem_filterMapId_pred, mem_filterMapId_pred]
    simp only [List.not_mem_nil, false_or, hp, true_and]
    constructor
    · rintro (⟨p, h1, h2, h3, h4⟩ | ⟨p, h1, h2, h3, h4⟩)
      · exact ⟨p, h1, h2, h3, Or.inl h4⟩
      · exact ⟨p, h1, h2, h3, Or.inr h4⟩
    · rintro ⟨p, h1, h2, h3, (h4 | h4)⟩
      · exact Or.inl ⟨p, h1, h2, h3, h4⟩
      · exact Or.inr ⟨p, h1, h2, h3, h4⟩
  · rw [if_neg (by simp [hp])]
    simp [hp]

theorem filter_eq_nil_no_match (profiles : List Profile) (senderId : Nat)
    (f : Profile → Bool)
    (h : (profiles.filter fun q => q.id != senderId && f q) = []) :
    ¬ ∃ p, p ∈ profiles ∧ p.id ≠ senderId ∧ f p = true := by
  rintro ⟨p, hp, hne, hf⟩
  have hmem : p ∈ profiles.filter fun q => q.id != senderId && f q := by
    rw [List.mem_filter]
    refine ⟨hp, ?_⟩
    rw [Bool.and_eq_true, bne_iff_ne]
    exact ⟨hne, hf⟩
  rw [h] at hmem
  simp at hmem

theorem mem_invoicePhoneStage (profiles : List Profile) (senderId : Nat)
    (rPhone : Option Str) (x : Nat) :
    (x ∈ invoicePhoneStage profiles senderId rPhone) ↔
      (truthy rPhone = true ∧
        ∃ p, p ∈ profiles ∧ p.id = x ∧ p.id ≠ senderId ∧
          (phoneEq p (rPhone.getD []) = true ∨
            ((profiles.filter fun q =>
                q.id != senderId && phoneEq q (rPhone.getD [])) = [] ∧
             phoneEndsWith p (rPhone.getD []) = true))) := by
  simp only [invoicePhoneStage]
  rcases truthy_true_or_false rPhone with hp | hp
  · rw [if_pos hp]
    by_cases hex : (profiles.filter fun q =>
        q.id != senderId && phoneEq q (rPhone.getD [])) = []
    · have hnomatch := filter_eq_nil_no_match profiles senderId
        (fun q => phoneEq q (rPhone.getD [])) hex
      rw [if_pos (by rw [hex]; rfl), mem_setAddAll, mem_setAddAll,
        mem_filterMapId_pred, mem_filterMapId_pred]
      simp only [List.not_mem_nil, false_or, hp, true_and]
      constructor
      · rintro (⟨p, h1, h2, h3, h4⟩ | ⟨p, h1, h2, h3, h4⟩)
        · exact ⟨p, h1, h2, h3, Or.inl h4⟩
        · exact ⟨p, h1, h2, h3, Or.inr ⟨hex, h4⟩⟩
      · rintro ⟨p, h1, h2, h3, (h4 | ⟨-, h4⟩)⟩
        · exact absurd ⟨p, h1, h3, h4⟩ hnomatch
        · exact Or.inr ⟨p, h1, h2, h3, h4⟩
    · have hne : ¬ (setAddAll []
          ((profiles.filter fun p =>
            p.id != senderId && phoneEq p (rPhone.getD [])).map Profile.id)).isEmpty = true := by
        intro hempty
        rw [List.isEmpty_iff, setAddAll_nil_eq_nil, List.map_eq_nil_iff] at hempty
        exact hex hempty
      rw [if_neg hne, mem_setAddAll, mem_filterMapId_pred]
      simp only [List.not_mem_nil, false_or, hp, true_and]
      constructor
      · rintro ⟨p, h1, h2, h3, h4⟩
        exact ⟨p, h1, h2, h3, Or.inl h4⟩
      · rintro ⟨p, h1, h2, h3, (h4 | ⟨hex2, h4⟩)⟩
        · exact ⟨p, h1, h2, h3, h4⟩
        · exact absurd hex2 hex
  · rw [if_neg (by simp [hp])]
    simp [hp]

theorem mem_quotationReceiverIds (profiles : List Profile) (senderId : Nat)
    (rPhone rEmail : Option Str) (x : Nat) :
    (x ∈ quotationReceiverIds profiles senderId rPhone rEmail) ↔
      ∃ p, p ∈ profiles ∧ p.id = x ∧ p.id ≠ senderId ∧
        ((truthy rPhone = true ∧
           (phoneEq p (rPhone.getD []) = true ∨ phoneEndsWithCI p (rPhone.getD []) = true)) ∨
         (truthy rEmail = true ∧ emailMatchCI p (rEmail.getD []) = true)) := by
  rw [quotationReceiverIds, mem_receiverEmailStage, mem_quotationPhoneStage]
  constructor
  · rintro (⟨hp, p, h1, h2, h3, h4⟩ | ⟨he, p, h1, h2, h3, h4⟩)
    · exact ⟨p, h1, h2, h3, Or.inl ⟨hp, h4⟩⟩
    · exact ⟨p, h1, h2, h3, Or.inr ⟨he, h4⟩⟩
  · rintro ⟨p, h1, h2, h3, (⟨hp, h4⟩ | ⟨he, h4⟩)⟩
    · exact Or.inl ⟨hp, p, h1, h2, h3, h4⟩
    · exact Or.inr ⟨he, p, h1, h2, h3, h4⟩

theorem mem_invoiceReceiverIds (profiles : List Profile) (senderId : Nat)
    (rPhone rEmail : Option Str) (x : Nat) :
    (x ∈ invoiceReceiverIds profiles senderId rPhone rEmail) ↔
      ∃ p, p ∈ profiles ∧ p.id = x ∧ p.id ≠ senderId ∧
        ((truthy rPhone = true ∧
           (phoneEq p (rPhone.getD []) = true ∨
             ((profiles.filter fun q =>
                 q.id != senderId && phoneEq q (rPhone.getD [])) = [] ∧
              phoneEndsWith p (rPhone.getD []) = true))) ∨
         (truthy rEmail = true ∧ emailMatchCI p (rEmail.getD []) = true)) := by
  rw [invoiceReceiverIds, mem_receiverEmailStage, mem_invoicePhoneStage]
  constructor
  · rintro (⟨hp, p, h1, h2, h3, h4⟩ | ⟨he, p, h1, h2, h3, h4⟩)
    · exact ⟨p, h1, h2, h3, Or.inl ⟨hp, h4⟩⟩
    · exact ⟨p, h1, h2, h3, Or.inr ⟨he, h4⟩⟩
  · rintro ⟨p, h1, h2, h3, (⟨hp, h4⟩ | ⟨he, h4⟩)⟩
    · exact Or.inl ⟨hp, p, h1, h2, h3, h4⟩
    · exact Or.inr ⟨he, p, h1, h2, h3, h4⟩

theorem nodup_receiverEmailStage (profiles : List Profile) (senderId : Nat)
    (rEmail : Option Str) (ids : List Nat) (h : ids.Nodup) :
    (receiverEmailStage profiles senderId rEmail ids).Nodup := by
  unfold receiverEmailStage
  split
  · exact nodup_setAddAll _ _ h
  · exact h

theorem nodup_quotationPhoneStage (profiles : List Profile) (senderId : Nat)
    (rPhone : Option Str) : (quotationPhoneStage profiles senderId rPhone).Nodup := by
  unfold quotationPhoneStage
  split
  · split
    · exact nodup_setAddAll _ _ List.nodup_nil
    · exact List.nodup_nil
  · exact List.nodup_nil

theorem nodup_invoicePhoneStage (profiles : List Profile) (senderId : Nat)
    (rPhone : Option Str) : (invoicePhoneStage profiles senderId rPhone).Nodup := by
  unfold invoicePhoneStage
  split
  · split
    · exact nodup_setAddAll _ _ (nodup_setAddAll _ _ List.nodup_nil)
    · exact nodup_setAddAll _ _ List.nodup_nil
  · exact List.nodup_nil

/-- C2 (counterexample): with one profile storing the canonical phone
`9876543210` and another storing the legacy form `919876543210`, the
second profile satisfies the claimed union (suffix rule), but invoice
receiver resolution returns only `[1]` — the suffix query is skipped
whenever the exact query matched. -/
theorem receiver_resolution_claim_cex :
    invoiceReceiverIds cexProfiles 0 (some "9876543210".data) none = [1] ∧
    ({ id := 2, phone := some "919876543210".data } : Profile) ∈ cexProfiles ∧
    claimReceiverMatch 0 (some "9876543210".data) none
      { id := 2, phone := some "919876543210".data } ∧
    2 ∉ invoiceReceiverIds cexProfiles 0 (some "9876543210".data) none := by decide

/-- C2 (amended): quotation receiver resolution returns exactly the
claimed union (exact phone, case-insensitive phone suffix,
case-insensitive email), but invoice receiver resolution includes the
suffix matches only when no exact match exists; both deduplicate, never
contain the excluded sender id, and are empty when phone and email are
both absent or empty. -/
theorem receiver_resolution_amended :
    ∀ (profiles : List Profile) (senderId : Nat) (rPhone rEmail : Option Str),
      (∀ x, x ∈ quotationReceiverIds profiles senderId rPhone rEmail ↔
        ∃ p, p ∈ profiles ∧ p.id = x ∧ p.id ≠ senderId ∧
          ((truthy rPhone = true ∧
             (phoneEq p (rPhone.getD []) = true ∨
              phoneEndsWithCI p (rPhone.getD []) = true)) ∨
           (truthy rEmail = true ∧ emailMatchCI p (rEmail.getD []) = true))) ∧
      (∀ x, x ∈ invoiceReceiverIds profiles senderId rPhone rEmail ↔
        ∃ p, p ∈ profiles ∧ p.id = x ∧ p.id ≠ senderId ∧
          ((truthy rPhone = true ∧
             (phoneEq p (rPhone.getD []) = true ∨
               ((profiles.filter fun q =>
                   q.id != senderId && phoneEq q (rPhone.getD [])) = [] ∧
                phoneEndsWith p (rPhone.getD []) = true))) ∨
           (truthy rEmail = true ∧ emailMatchCI p (rEmail.getD []) = true))) ∧
      (quotationReceiverIds profiles senderId rPhone rEmail).Nodup ∧
      (invoiceReceiverIds profiles senderId rPhone rEmail).Nodup ∧
      senderId ∉ quotationReceiverIds profiles senderId rPhone rEmail ∧
      senderId ∉ invoiceReceiverIds profiles senderId rPhone rEmail ∧
      (truthy rPhone = false → truthy rEmail = false →
        quotationReceiverIds profiles senderId rPhone rEmail = [] ∧
        invoiceReceiverIds profiles senderId rPhone rEmail = []) := by
  intro profiles senderId rPhone rEmail
  refine ⟨mem_quotationReceiverIds profiles senderId rPhone rEmail,
    mem_invoiceReceiverIds profiles senderId rPhone rEmail,
    nodup_receiverEmailStage _ _ _ _ (nodup_quotationPhoneStage _ _ _),
    nodup_receiverEmailStage _ _ _ _ (nodup_invoicePhoneStage _ _ _), ?_, ?_, ?_⟩
  · intro h
    rw [mem_quotationReceiverIds] at h
    obtain ⟨p, -, h2, h3, -⟩ := h
    exact h3 h2
  · intro h
    rw [mem_invoiceReceiverIds] at h
    obtain ⟨p, -, h2, h3, -⟩ := h
    exact h3 h2
  · intro hp he
    constructor
    · rw [quotationReceiverIds, receiverEmailStage, if_neg (by simp [he]),
        quotationPhoneStage, if_neg (by simp [hp])]
    · rw [invoiceReceiverIds, receiverEmailStage, if_neg (by simp [he]),
        invoicePhoneStage, if_neg (by simp [hp])]

/-- C2 (witness): the amended theorem instantiated on the fixture:
profile 2 is reachable through the quotation resolver's suffix rule. -/
theorem receiver_resolution_amended_witness :
    (2 ∈ quotationReceiverIds cexProfiles 0 (some "9876543210".data) none) ∧
    (2 ∉ invoiceReceiverIds cexProfiles 0 (some "9876543210".data) none) :=
  ⟨((receiver_resolution_amended cexProfiles 0 (some "9876543210".data) none).1 2).mpr
     ⟨{ id := 2, phone := some "919876543210".data }, by decide, by decide, by decide,
       by decide⟩,
   by decide⟩

/-! ## C6 — persisted type tag -/

theorem tryInsertMessage_invoices (f : Bool) (db : Db) (uid : Nat) :
    (tryInsertMessage f db uid).invoices = db.invoices := by
  unfold tryInsertMessage
  split <;> rfl

theorem tryInsertMessage_quotations (f : Bool) (db : Db) (uid : Nat) :
    (tryInsertMessage f db uid).quotations = db.quotations := by
  unfold tryInsertMessage
  split <;> rfl

theorem foldl_tryInsert_invoices (env : CreateEnv) (l : List Nat) (d : Db) :
    (l.foldl (fun d rid =>
      tryInsertMessage (decide (rid ∈ env.receiverMsgFails)) d rid) d).invoices =
      d.invoices := by
  induction l generalizing d with
  | nil => rfl
  | cons a t ih =>
    rw [List.foldl_cons, ih, tryInsertMessage_invoices]

theorem foldl_tryInsert_quotations (env : CreateEnv) (l : List Nat) (d : Db) :
    (l.foldl (fun d rid =>
      tryInsertMessage (decide (rid ∈ env.receiverMsgFails)) d rid) d).quotations =
      d.quotations := by
  induction l generalizing d with
  | nil => rfl
  | cons a t ih =>
    rw [List.foldl_cons, ih, tryInsertMessage_quotations]

theorem invoiceFanout_fst_invoices (env : CreateEnv) (db : Db) (uid : Nat)
    (resp : InvoiceResp) (rp re : Option Str) :
    ((invoiceFanout env db uid resp rp re).1).invoices = db.invoices := by
  unfold invoiceFanout
  rw [foldl_tryInsert_invoices, tryInsertMessage_invoices]

theorem quotationFanout_fst_quotations (env : CreateEnv) (db : Db) (uid : Nat)
    (resp : QuotationResp) (rp re : Option Str) :
    ((quotationFanout env db uid resp rp re).1).quotations = db.quotations := by
  unfold quotationFanout
  rw [foldl_tryInsert_quotations, tryInsertMessage_quotations]

/-- C6 (counterexample): a create request carrying `type: 'received'` is
persisted as `received` (the payload uses `body.type || 'sent'`), and an
owner update with `type: 'received'` persists it too — `received` is not
only a transient response tag. -/
theorem type_persistence_claim_cex :
    ((invoiceCreate {} {} 1 recvTypeBody).db.invoices.map Invoice.type) =
      ["received".data] ∧
    ((invoiceUpdate sampleDb 1 7 { type := some "received".data }).1.invoices.map
        Invoice.type) = ["received".data] := by decide

/-- C6 (amended): when the create request does not supply a `type`, the
persisted document row (and the returned document) carries
`type = 'sent'`, for both invoices and quotations; a caller-supplied
`type` (including `received`) is persisted as given by create and
update. -/
theorem type_default_sent_amended :
    ∀ (env : CreateEnv) (db : Db) (uid : Nat),
      (∀ (body : InvoiceBody) (r : InvoiceResp), body.type = none →
        (invoiceCreate env db uid body).result = .ok r →
        r.invoice.type = "sent".data ∧
        (invoiceCreate env db uid body).db.invoices = db.invoices ++ [r.invoice]) ∧
      (∀ (body : QuotationBody) (r : QuotationResp), body.type = none →
        (quotationCreate env db uid body).result = .ok r →
        r.quotation.type = "sent".data ∧
        (quotationCreate env db uid body).db.quotations =
          db.quotations ++ [r.quotation]) := by
  intro env db uid
  constructor
  · intro body r ht hok
    unfold invoiceCreate at *
    by_cases hn : truthy (body.number.map trimStr) = true
    · simp only [hn, Bool.not_true, Bool.false_eq_true, if_false] at *
      rcases hres : invoiceResolveRecipient db uid body with e | ⟨rp, re⟩ <;>
        simp only [hres] at hok ⊢
      · exact absurd hok (by simp)
      · cases hdoc : env.insertDocErr with
        | some m =>
          simp only [hdoc] at hok
          exact absurd hok (by simp)
        | none =>
          simp only [hdoc] at hok ⊢
          by_cases hit : 0 < (body.items.getD []).length ∧ env.insertItemsErr.isSome = true
          · rw [if_pos hit] at hok ⊢
            exact absurd hok (by simp)
          · rw [if_neg hit] at hok ⊢
            simp only [Except.ok.injEq] at hok
            subst hok
            constructor
            · by_cases hr : env.refetchOk = true <;>
                simp only [hr, if_true, Bool.false_eq_true, if_false] <;>
                simp [ht, truthy]
            · rw [invoiceFanout_fst_invoices]
              by_cases hi : 0 < (body.items.getD []).length <;>
                by_cases hr : env.refetchOk = true <;>
                simp [hi, hr]
    · have hn' := truthy_false_cases _ hn
      simp only [hn', Bool.not_false, if_true] at hok
      exact absurd hok (by simp)
  · intro body r ht hok
    unfold quotationCreate at *
    by_cases hn : truthy (body.quo_number.map trimStr) = true
    · simp only [hn, Bool.not_true, Bool.false_eq_true, if_false] at *
      rcases hres : quotationResolveRecipient db uid body with e | ⟨rp, re⟩ <;>
        simp only [hres] at hok ⊢
      · exact absurd hok (by simp)
      · cases hdoc : env.insertDocErr with
        | some m =>
          simp only [hdoc] at hok
          exact absurd hok (by simp)
        | none =>
          simp only [hdoc] at hok ⊢
          by_cases hit : 0 < (body.items.getD []).length ∧ env.insertItemsErr.isSome = true
          · rw [if_pos hit] at hok ⊢
            exact absurd hok (by simp)
          · rw [if_neg hit] at hok ⊢
            simp only [Except.ok.injEq] at hok
            subst hok
            constructor
            · by_cases hr : env.refetchOk = true <;>
                simp only [hr, if_true, Bool.false_eq_true, if_false] <;>
                simp [ht, truthy]
            · rw [quotationFanout_fst_quotations]
              by_cases hi : 0 < (body.items.getD []).length <;>
                by_cases hr : env.refetchOk = true <;>
                simp [hi, hr]
    · have hn' := truthy_false_cases _ hn
      simp only [hn', Bool.not_false, if_true] at hok
      exact absurd hok (by simp)

/-- C6 (witness): the amended theorem applied to a concrete type-less
create request. -/
theorem type_default_sent_amended_witness :
    plainBody.type = none ∧
    (invoiceCreate {} {} 1 plainBody).result = .ok { invoice := sentInvoiceRow } ∧
    ({ invoice := sentInvoiceRow } : InvoiceResp).invoice.type = "sent".data :=
  ⟨rfl, by decide,
   ((type_default_sent_amended {} {} 1).1 plainBody { invoice := sentInvoiceRow }
     rfl (by decide)).1⟩

/-! ## C1 — creation precondition on recipient identity -/

/-- C1 (counterexample): an invoice create request with no `customer_id`
(and so a recipient identity that resolves to both-null) succeeds and
persists a row with null `recipient_phone`/`recipient_email`, refuting
the claim that every such creation fails before any write. -/
theorem creation_precondition_claim_cex :
    (invoiceCreate {} {} 1 plainBody).result = .ok { invoice := sentInvoiceRow } ∧
    sentInvoiceRow.recipient_phone = none ∧
    sentInvoiceRow.recipient_email = none ∧
    (invoiceCreate {} {} 1 plainBody).db.invoices = [sentInvoiceRow] := by decide

/-- C1 (amended): quotation creation enforces the precondition as
claimed — after resolving the customer fields and explicit overrides
through `phoneForStorage`/`emailForStorage`, a both-null identity is
rejected with a validation error before any write.  Invoice creation
applies the check only when a `customer_id` is supplied and the customer
row is found (explicit overrides are never consulted); with no
`customer_id` the document is created with null recipient fields. -/
theorem creation_precondition_amended :
    ∀ (env : CreateEnv) (db : Db) (uid : Nat),
      (∀ body : QuotationBody, truthy (body.quo_number.map trimStr) = true →
        quotationResolvedPair db uid body = (none, none) →
        (quotationCreate env db uid body).db = db ∧
        (quotationCreate env db uid body).result =
          .error (.badRequest "Customer must have a phone or email, or provide recipient_phone/recipient_email, so the recipient can see this quotation when they sign up.".data)) ∧
      (∀ (body : InvoiceBody) (cid : Nat) (c : Customer),
        truthy (body.number.map trimStr) = true →
        body.customer_id = some cid → findCustomer db cid uid = some c →
        invoiceCustPair c = (none, none) →
        (invoiceCreate env db uid body).db = db ∧
        (invoiceCreate env db uid body).result =
          .error (.badRequest "Customer must have a phone number or email so the recipient can see this invoice when they sign up.".data)) ∧
      (∀ body : InvoiceBody, truthy (body.number.map trimStr) = true →
        body.customer_id = none → env.insertDocErr = none → env.insertItemsErr = none →
        ∃ r, (invoiceCreate env db uid body).result = .ok r ∧
          r.invoice.recipient_phone = none ∧ r.invoice.recipient_email = none) := by
  intro env db uid
  refine ⟨?_, ?_, ?_⟩
  · intro body hn hpair
    have hres : quotationResolveRecipient db uid body =
        .error (.badRequest "Customer must have a phone or email, or provide recipient_phone/recipient_email, so the recipient can see this quotation when they sign up.".data) := by
      unfold quotationResolveRecipient
      rw [hpair]
      simp
    unfold quotationCreate
    simp only [hn, Bool.not_true, Bool.false_eq_true, if_false, hres]
    exact ⟨trivial, trivial⟩
  · intro body cid c hn hcid hfindc hpair
    have hres : invoiceResolveRecipient db uid body =
        .error (.badRequest "Customer must have a phone number or email so the recipient can see this invoice when they sign up.".data) := by
      unfold invoiceResolveRecipient
      rw [hcid]
      simp only [hfindc, hpair]
      simp
    unfold invoiceCreate
    simp only [hn, Bool.not_true, Bool.false_eq_true, if_false, hres]
    exact ⟨trivial, trivial⟩
  · intro body hn hcid hdoc hitems
    have hres : invoiceResolveRecipient db uid body = .ok (none, none) := by
      unfold invoiceResolveRecipient
      rw [hcid]
    unfold invoiceCreate
    simp only [hn, Bool.not_true, Bool.false_eq_true, if_false, hres, hdoc, hitems,
      Option.isSome_none, Bool.false_eq_true, and_false, if_false]
    by_cases hr : env.refetchOk = true <;>
      simp only [hr, if_true, Bool.false_eq_true, if_false] <;>
      exact ⟨_, rfl, rfl, rfl⟩

/-- C1 (witness): the amended theorem applied to a concrete quotation
body that resolves to a both-null identity. -/
theorem creation_precondition_amended_witness :
    truthy (quoBodyNoRecip.quo_number.map trimStr) = true ∧
    quotationResolvedPair {} 1 quoBodyNoRecip = (none, none) ∧
    (quotationCreate {} {} 1 quoBodyNoRecip).db = {} ∧
    (quotationCreate {} {} 1 quoBodyNoRecip).result =
      .error (.badRequest "Customer must have a phone or email, or provide recipient_phone/recipient_email, so the recipient can see this quotation when they sign up.".data) := by
  have h := (creation_precondition_amended {} {} 1).1 quoBodyNoRecip
    (by decide) (by decide)
  exact ⟨by decide, by decide, h.1, h.2⟩

/-! ## C5 — best-effort notification fan-out -/

theorem invoiceFanout_snd_sender (env : CreateEnv) (db : Db) (uid : Nat)
    (resp : InvoiceResp) (rp re : Option Str) :
    (invoiceFanout env db uid resp rp re).2.senderMsgAttempted = true := rfl

theorem invoiceFanout_snd_mail (env : CreateEnv) (db : Db) (uid : Nat)
    (resp : InvoiceResp) (rp re : Option Str) (h : env.mailConfigured = false) :
    (invoiceFanout env db uid resp rp re).2.mailSendCalled = false := by
  show ((truthy ((resp.customer.bind Customer.email).map trimStr) &&
    emailRegexMatch (((resp.customer.bind Customer.email).map trimStr).getD [])) &&
    env.mailConfigured) = false
  rw [h, Bool.and_false]

theorem quotationFanout_snd_sender (env : CreateEnv) (db : Db) (uid : Nat)
    (resp : QuotationResp) (rp re : Option Str) :
    (quotationFanout env db uid resp rp re).2.senderMsgAttempted = true := rfl

/-- C5: notification outcomes never change the HTTP result of creation.
For two environments that agree on the primary-write outcomes (and the
re-fetch and date), every invoice/quotation create call returns the same
result — so message-insert, push and mail failures are invisible to the
caller; the set of attempted receiver messages and push tokens is the
same no matter which channels fail; on success the sender message is
always attempted; with no mail transport configured the mail send is
skipped; and once the document and items persist and validation passed,
the call returns the resolved document. -/
theorem notification_fanout_besteffort :
    ∀ (e1 e2 : CreateEnv) (db : Db) (uid : Nat),
      e1.insertDocErr = e2.insertDocErr →
      e1.insertItemsErr = e2.insertItemsErr →
      e1.refetchOk = e2.refetchOk →
      e1.today = e2.today →
      (∀ body : InvoiceBody,
        (invoiceCreate e1 db uid body).result = (invoiceCreate e2 db uid body).result ∧
        (invoiceCreate e1 db uid body).log.receiverMsgAttempts =
          (invoiceCreate e2 db uid body).log.receiverMsgAttempts ∧
        (∀ r, (invoiceCreate e1 db uid body).result = .ok r →
          (invoiceCreate e1 db uid body).log.senderMsgAttempted = true) ∧
        (e1.mailConfigured = false →
          (invoiceCreate e1 db uid body).log.mailSendCalled = false) ∧
        (e1.insertDocErr = none → e1.insertItemsErr = none →
          truthy (body.number.map trimStr) = true →
          ∀ pr, invoiceResolveRecipient db uid body = .ok pr →
          ∃ r, (invoiceCreate e1 db uid body).result = .ok r)) ∧
      (∀ body : QuotationBody,
        (quotationCreate e1 db uid body).result = (quotationCreate e2 db uid body).result ∧
        (quotationCreate e1 db uid body).log.receiverMsgAttempts =
          (quotationCreate e2 db uid body).log.receiverMsgAttempts ∧
        (quotationCreate e1 db uid body).log.pushAttemptTokens =
          (quotationCreate e2 db uid body).log.pushAttemptTokens ∧
        (∀ r, (quotationCreate e1 db uid body).result = .ok r →
          (quotationCreate e1 db uid body).log.senderMsgAttempted = true) ∧
        (e1.insertDocErr = none → e1.insertItemsErr = none →
          truthy (body.quo_number.map trimStr) = true →
          ∀ pr, quotationResolveRecipient db uid body = .ok pr →
          ∃ r, (quotationCreate e1 db uid body).result = .ok r)) := by
  intro e1 e2 db uid h1 h2 h3 h4
  constructor
  · intro body
    unfold invoiceCreate
    rw [← h1, ← h2, ← h3]
    by_cases hn : truthy (body.number.map trimStr) = true
    · simp only [hn, Bool.not_true, Bool.false_eq_true, if_false]
      rcases hres : invoiceResolveRecipient db uid body with e | ⟨rp, re⟩ <;>
        simp only [hres]
      · refine ⟨trivial, trivial, ?_, fun _ => trivial, ?_⟩
        · intro r h
          exact absurd h (by simp)
        · intro _ _ _ pr hpr
          simp at hpr
      · cases hdoc : e1.insertDocErr with
        | some m =>
          simp only [hdoc]
          refine ⟨trivial, trivial, ?_, fun _ => trivial, ?_⟩
          · intro r h
            exact absurd h (by simp)
          · intro hd _ _ pr hpr
            exact absurd hd (by simp)
        | none =>
          simp only [hdoc]
          by_cases hit : 0 < (body.items.getD []).length ∧ e1.insertItemsErr.isSome = true
          · rw [if_pos hit, if_pos hit]
            refine ⟨rfl, rfl, ?_, fun _ => rfl, ?_⟩
            · intro r h
              exact absurd h (by simp)
            · intro _ hi _ pr hpr
              rw [hi] at hit
              simp at hit
          · rw [if_neg hit, if_neg hit]
            refine ⟨rfl, rfl, ?_, ?_, ?_⟩
            · intro r h
              exact invoiceFanout_snd_sender e1 _ uid _ rp re
            · intro hm
              exact invoiceFanout_snd_mail e1 _ uid _ rp re hm
            · intro _ _ _ pr hpr
              exact ⟨_, rfl⟩
    · have hn' := truthy_false_cases _ hn
      simp only [hn', Bool.not_false, if_true]
      refine ⟨trivial, trivial, ?_, fun _ => trivial, ?_⟩
      · intro r h
        exact absurd h (by simp)
      · intro _ _ ht _ _
        exact absurd ht (by simp)
  · intro body
    unfold quotationCreate
    rw [← h1, ← h2, ← h3, ← h4]
    by_cases hn : truthy (body.quo_number.map trimStr) = true
    · simp only [hn, Bool.not_true, Bool.false_eq_true, if_false]
      rcases hres : quotationResolveRecipient db uid body with e | ⟨rp, re⟩ <;>
        simp only [hres]
      · refine ⟨trivial, trivial, trivial, ?_, ?_⟩
        · intro r h
          exact absurd h (by simp)
        · intro _ _ _ pr hpr
          simp at hpr
      · cases hdoc : e1.insertDocErr with
        | some m =>
          simp only [hdoc]
          refine ⟨trivial, trivial, trivial, ?_, ?_⟩
          · intro r h
            exact absurd h (by simp)
          · intro hd _ _ pr hpr
            exact absurd hd (by simp)
        | none =>
          simp only [hdoc]
          by_cases hit : 0 < (body.items.getD []).length ∧ e1.insertItemsErr.isSome = true
          · rw [if_pos hit, if_pos hit]
            refine ⟨rfl, rfl, rfl, ?_, ?_⟩
            · intro r h
              exact absurd h (by simp)
            · intro _ hi _ pr hpr
              rw [hi] at hit
              simp at hit
          · rw [if_neg hit, if_neg hit]
            refine ⟨rfl, rfl, rfl, ?_, ?_⟩
            · intro r h
              rfl
            · intro _ _ _ pr hpr
              exact ⟨_, rfl⟩
    · have hn' := truthy_false_cases _ hn
      simp only [hn', Bool.not_false, if_true]
      refine ⟨trivial, trivial, trivial, ?_, ?_⟩
      · intro r h
        exact absurd h (by simp)
      · intro _ _ ht _ _
        exact absurd ht (by simp)

/-- C5 (witness): a benign environment against one where every
notification channel fails — the invoice create result is identical and
the sender message was still attempted. -/
theorem notification_fanout_besteffort_witness :
    ((invoiceCreate {} {} 1 plainBody).result =
      (invoiceCreate failingEnv {} 1 plainBody).result) ∧
    (invoiceCreate {} {} 1 plainBody).log.senderMsgAttempted = true := by
  have h := (notification_fanout_besteffort {} failingEnv {} 1
    rfl rfl rfl rfl).1 plainBody
  exact ⟨h.1, h.2.2.1 { invoice := sentInvoiceRow } (by decide)⟩

end InvoiceBack
